import Mathlib

/-!
# Verification of the travel-booking domain services

Shallow embedding of the booking / availability / pricing services of the
travel-booking repository (apps `hotels`, `cars`, `flights`, `core`,
`payments`) together with proofs of the specification claims.

Conventions of the embedding:
* Python `Decimal` values are rationals (`ℚ`); `Decimal.quantize(Decimal('0.01'))`
  with the default `ROUND_HALF_EVEN` context is `quantize2`;
  `to_integral_value(rounding=ROUND_CEILING)` is `Int.ceil`.
* Dates are day numbers (`ℤ`); adding one day is `+ 1`, so `core.models.daterange`
  enumerates the integers of `[start, end)`.
* Python strings are `List Char`.
* Database tables keyed by `(resource, date)` are functions `ℤ → Option β`
  (`none` = no row yet); `get_or_create` reads through a default.
* Fallible operations return the final database state together with an
  `Except`-style outcome; `django.db.transaction.atomic` is the `atomically`
  combinator: the state produced by the body is kept on normal exit and
  discarded (rolled back) when an exception escapes the block.
* The external payment gateway (`payments.services.charge_booking`) is a
  parameter `Option PaymentResult`: `some r` is a normal return, `none` means
  the provider raised an exception.
-/

/-! ## Decimal arithmetic (`decimal.Decimal` with 2-decimal quantization) -/

/-- Round a rational to the nearest integer, ties to the even integer:
Python `decimal`'s default `ROUND_HALF_EVEN`. -/

def roundHalfEven (q : ℚ) : ℤ :=
  let f : ℤ := ⌊q⌋
  let r : ℚ := q - f
  if r < 1/2 then f
  else if 1/2 < r then f + 1
  else if Even f then f else f + 1

/-- `x.quantize(Decimal('0.01'))` under the default (`ROUND_HALF_EVEN`) context. -/

def quantize2 (q : ℚ) : ℚ := (roundHalfEven (q * 100) : ℚ) / 100

/-! ## `flights.services` — luggage constants and weight handling -/

def OVERWEIGHT_INCLUDED_KG : ℚ := 40

def HAND_LUGGAGE_LIMIT_KG : ℚ := 7

def OVERWEIGHT_FEE_PER_KG : ℚ := 20

/-- The raw value handed to `normalize_weight_input`: `Python None`, the empty
string, a string `Decimal` cannot parse, or a parsed numeric value. -/

inductive WeightInput where
  | null : WeightInput
  | emptyStr : WeightInput
  | unparsable : WeightInput
  | value (q : ℚ) : WeightInput
deriving DecidableEq

/-- `flights.services.normalize_weight_input`: `None`/`''` and unparsable
inputs become `Decimal('0.00')`, negatives become `Decimal('0.00')`, and any
other value is quantized to two decimal places. -/

def normalize_weight_input : WeightInput → ℚ
  | .null => 0
  | .emptyStr => 0
  | .unparsable => 0
  | .value q => if q < 0 then 0 else quantize2 q

/-- `flights.services.calculate_luggage_overweight_fee`: overage above the
40 kg allowance, rounded up to a whole kilogram, at 20 currency units per kg. -/

def calculate_luggage_overweight_fee (main_luggage_weight : ℚ) : ℚ :=
  let overweight := main_luggage_weight - OVERWEIGHT_INCLUDED_KG
  if overweight ≤ 0 then 0
  else quantize2 ((⌈overweight⌉ : ℚ) * OVERWEIGHT_FEE_PER_KG)

/-! ## `core.models` — daterange and reference numbers -/

/-- `core.models.daterange`: the days of `[start_date, end_date)`. -/

def daterange (start_date end_date : ℤ) : List ℤ :=
  (List.range (end_date - start_date).toNat).map (fun i : ℕ => start_date + (i : ℤ))

/-- The lowercase hexadecimal digits produced by `uuid.uuid4().hex`. -/

def lowHexDigits : List Char := "0123456789abcdef".toList

/-- The uppercase hexadecimal digits appearing in a reference number. -/

def upHexDigits : List Char := "0123456789ABCDEF".toList

/-- `core.models.ReferenceNumberMixin.generate_reference`: take the first ten
characters of `uuid4().hex`, uppercase them, and format `{PREFIX}-XXXX-XXXXXX`
(`prefix or 'BK'`, so `None` and the empty string both fall back to `BK`).
The randomness source `uuid4().hex` is the explicit argument `uuidHex`; the
generator consults nothing else — in particular no table of existing
bookings, hence no collision retry. -/

def generate_reference (pfx : Option (List Char)) (uuidHex : List Char) : List Char :=
  let uid := (uuidHex.take 10).map Char.toUpper
  let p := match pfx with
    | none => ['B', 'K']
    | some p => if p = [] then ['B', 'K'] else p
  p ++ ['-'] ++ uid.take 4 ++ ['-'] ++ uid.drop 4

/-- `core.models.ReferenceNumberMixin.save`, restricted to the
`reference_number` column: assign a generated reference on first save
(`if not self.reference_number`), leave it untouched afterwards. -/

def referenceNumberSave (reference_number : List Char) (uuidHex : List Char) : List Char :=
  if reference_number = [] then generate_reference none uuidHex else reference_number

/-! ## `payments.services` — payment gateway results and records -/

/-- `payments.services.PaymentResult` (the fields the booking services read). -/

structure PaymentResult where
  reference : List Char
  status : List Char
  is_success : Bool
deriving DecidableEq

/-- A row of `payments.models.Payment` as written by
`payments.services.store_payment_record`:
`status = SUCCEEDED if result.is_success else FAILED`. -/

structure PaymentRow where
  amount : ℚ
  succeeded : Bool
  provider_reference : List Char
deriving DecidableEq

/-- `payments.services.store_payment_record` produces the row it appends. -/

def store_payment_record (amount : ℚ) (result : PaymentResult) : PaymentRow :=
  { amount := amount, succeeded := result.is_success, provider_reference := result.reference }

/-- Booking payment status: `SETTLED` on gateway success, else `PENDING`
(`HotelBooking/CarBooking/FlightBooking.PaymentStatus`). -/

inductive PayStatus where
  | pending
  | settled
deriving DecidableEq

/-- `django.db.transaction.atomic`: keep the state the body produced when it
returns normally, restore the entry state when an exception escapes. -/

def atomically {σ ε β : Type} (db : σ) (body : σ → σ × Except ε β) : σ × Except ε β :=
  match body db with
  | (db1, .ok b) => (db1, .ok b)
  | (_, .error e) => (db, .error e)

/-! ## `hotels.services` — inventory, availability, booking -/

/-- `hotels.models.HotelRoomType` (the columns the services read).
`total_rooms` is a `PositiveIntegerField` with `MinValueValidator(1)`. -/

structure HotelRoomType where
  base_price : ℚ
  total_rooms : ℤ

/-- The `hotels.models.HotelRoomInventory` table for one room type:
a row per date, holding `available_rooms`. -/

def HotelInv : Type := ℤ → Option ℤ

/-- Point update of an inventory table. -/

def HotelInv.upd (inv : HotelInv) (d : ℤ) (v : ℤ) : HotelInv :=
  fun x => if x = d then some v else inv x

/-- `hotels.services._ensure_inventory`: `get_or_create` the row for the date,
defaulting `available_rooms` to `total_rooms`, then clamp a count above
`total_rooms` back down.  Returns the new table and the row's count. -/

def ensure_inventory (rt : HotelRoomType) (inv : HotelInv) (d : ℤ) : HotelInv × ℤ :=
  let v0 := (inv d).getD rt.total_rooms
  let v := if rt.total_rooms < v0 then rt.total_rooms else v0
  (inv.upd d v, v)

/-- The `available_rooms` count a read through `_ensure_inventory` observes on
a given date: the stored count (full capacity if the row is absent), clamped
to `total_rooms`. -/

def recVal (rt : HotelRoomType) (inv : HotelInv) (d : ℤ) : ℤ :=
  let v0 := (inv d).getD rt.total_rooms
  if rt.total_rooms < v0 then rt.total_rooms else v0

/-- One reason entry of `hotels.services.check_availability`
(`'Invalid date range'` or `f"Only {n} rooms left on {night}"`). -/

inductive HotelReason where
  | invalidRange
  | onlyRoomsLeftOn (available_rooms : ℤ) (night : ℤ)
deriving DecidableEq

/-- Result dataclass `hotels.services.HotelAvailability`. -/

structure HotelAvailability where
  check_in : ℤ
  check_out : ℤ
  rooms_requested : ℤ
  available : Bool
  reasons : List HotelReason
deriving DecidableEq

/-- The per-night loop of `check_availability`: ensure the row for each night
and record a reason for each night with fewer rooms than requested. -/

def hotelCheckDays (rt : HotelRoomType) (rooms : ℤ) :
    List ℤ → HotelInv → HotelInv × List HotelReason
  | [], inv => (inv, [])
  | night :: rest, inv =>
      let e := ensure_inventory rt inv night
      let r := hotelCheckDays rt rooms rest e.1
      (r.1, (if e.2 < rooms then [.onlyRoomsLeftOn e.2 night] else []) ++ r.2)

/-- `hotels.services.check_availability`. -/

def hotels.check_availability (rt : HotelRoomType) (check_in check_out : ℤ)
    (rooms : ℤ) (inv : HotelInv) : HotelInv × HotelAvailability :=
  if check_out ≤ check_in then
    (inv, ⟨check_in, check_out, rooms, false, [.invalidRange]⟩)
  else
    let r := hotelCheckDays rt rooms (daterange check_in check_out) inv
    (r.1, ⟨check_in, check_out, rooms, r.2.isEmpty, r.2⟩)

/-- The per-night loop of `hotels.services._adjust_inventory`: ensure the row,
add `delta * rooms`, raise `AvailabilityError` (reporting the night) instead
of saving a negative count.  A raise aborts the loop with the rows saved so
far (each `save` commits in autocommit mode). -/

def hotelAdjustDays (rt : HotelRoomType) (rooms delta : ℤ) :
    List ℤ → HotelInv → HotelInv × Option ℤ
  | [], inv => (inv, none)
  | night :: rest, inv =>
      let e := ensure_inventory rt inv night
      let new_value := e.2 + delta * rooms
      if new_value < 0 then (e.1, some night)
      else hotelAdjustDays rt rooms delta rest (e.1.upd night new_value)

/-- `hotels.services._adjust_inventory` over `[check_in, check_out)`;
`some night` is the `AvailabilityError` raised for that night. -/

def _adjust_inventory (rt : HotelRoomType) (check_in check_out rooms delta : ℤ)
    (inv : HotelInv) : HotelInv × Option ℤ :=
  hotelAdjustDays rt rooms delta (daterange check_in check_out) inv

/-- `hotels.services.reserve_inventory` (`delta = -1`). -/

def reserve_inventory (rt : HotelRoomType) (check_in check_out rooms : ℤ)
    (inv : HotelInv) : HotelInv × Option ℤ :=
  _adjust_inventory rt check_in check_out rooms (-1) inv

/-- `hotels.services.release_inventory` (`delta = +1`). -/

def release_inventory (rt : HotelRoomType) (check_in check_out rooms : ℤ)
    (inv : HotelInv) : HotelInv × Option ℤ :=
  _adjust_inventory rt check_in check_out rooms 1 inv

/-- `hotels.services.calculate_total_price`: `base_price * nights * rooms`. -/

def hotels.calculate_total_price (rt : HotelRoomType) (check_in check_out rooms : ℤ) : ℚ :=
  rt.base_price * ((check_out - check_in : ℤ) : ℚ) * (rooms : ℚ)

/-- A row of `hotels.models.HotelBooking` as created by `create_booking`. -/

structure HotelBookingRow where
  reference_number : List Char
  check_in : ℤ
  check_out : ℤ
  guests : ℤ
  surname : List Char
  contact_email : List Char
  total_price : ℚ
  payment_status : PayStatus
  payment_reference : List Char
  special_requests : List Char
deriving DecidableEq

/-- The database state touched by the hotel booking service. -/

structure HotelDB where
  inv : HotelInv
  bookings : List HotelBookingRow
  payments : List PaymentRow

/-- Exceptions escaping `hotels.services.create_booking`:
`AvailabilityError({'rooms': reasons})` from the pre-check,
`AvailabilityError({'inventory': ...})` raised by `_adjust_inventory` for a
night it cannot decrement, and a payment-provider exception. -/

inductive HotelErr where
  | availability (reasons : List HotelReason)
  | inventoryInsufficient (night : ℤ)
  | payment
deriving DecidableEq

/-- The `with transaction.atomic():` block of `hotels.services.create_booking`:
reserve the rooms, charge the gateway, write the booking and payment rows.
On a gateway exception the rooms are released and the exception re-raised
(so `atomically` rolls these writes back). -/

def hotels.bookingTransaction (rt : HotelRoomType) (check_in check_out rooms guests : ℤ)
    (surname contact_email special_requests : List Char)
    (payment : Option PaymentResult) (uuidHex : List Char) (total_price : ℚ)
    (dbA : HotelDB) : HotelDB × Except HotelErr HotelBookingRow :=
  let r := reserve_inventory rt check_in check_out rooms dbA.inv
  match r.2 with
  | some night =>
      ({ dbA with inv := r.1 }, .error (.inventoryInsufficient night))
  | none =>
      let db2 : HotelDB := { dbA with inv := r.1 }
      match payment with
      | none =>
          -- `except Exception`: release the rooms, then re-raise.
          let rel := release_inventory rt check_in check_out rooms db2.inv
          ({ db2 with inv := rel.1 }, .error .payment)
      | some pay =>
          let booking : HotelBookingRow :=
            { reference_number := referenceNumberSave [] uuidHex
              check_in := check_in
              check_out := check_out
              guests := guests
              surname := surname
              contact_email := contact_email
              total_price := total_price
              payment_status := if pay.is_success then .settled else .pending
              payment_reference := pay.reference
              special_requests := special_requests }
          ({ db2 with
              bookings := db2.bookings ++ [booking]
              payments := db2.payments ++ [store_payment_record total_price pay] },
            .ok booking)

/-- `hotels.services.create_booking`.  `payment` is the outcome of the
external `charge_booking` call (`none` = the provider raised); `uuidHex` is
the `uuid4().hex` draw consumed when the booking row is first saved.
The confirmation email sent after the transaction has no database effect and
is not modelled. -/

def hotels.create_booking (rt : HotelRoomType) (check_in check_out rooms guests : ℤ)
    (surname contact_email special_requests : List Char)
    (payment : Option PaymentResult) (uuidHex : List Char)
    (db : HotelDB) : HotelDB × Except HotelErr HotelBookingRow :=
  let c := hotels.check_availability rt check_in check_out rooms db.inv
  let db1 : HotelDB := { db with inv := c.1 }
  if c.2.available = false then
    (db1, .error (.availability c.2.reasons))
  else
    let total_price := hotels.calculate_total_price rt check_in check_out rooms
    atomically db1 (hotels.bookingTransaction rt check_in check_out rooms guests
      surname contact_email special_requests payment uuidHex total_price)

/-! ## `cars.services` — availability, pricing, booking -/

/-- `cars.models.Car` (scalar columns; `price_per_day` was renamed to
`price_per_trip` by migration `cars.0002_car_routing_fields`, and the
services, views and admin all read `price_per_trip`). -/

structure Car where
  company : List Char
  model : List Char
  category : List Char
  seats : ℤ
  luggage_capacity : ℤ
  location : List Char
  price_per_trip : ℚ
  is_active : Bool

/-- The `cars.models.CarAvailability` table for one car: a row per date
holding `is_available` (column default `True`). -/

def CarInv : Type := ℤ → Option Bool

/-- Point update of a car availability table. -/

def CarInv.upd (inv : CarInv) (d : ℤ) (b : Bool) : CarInv :=
  fun x => if x = d then some b else inv x

/-- `cars.services.ensure_availability_record`: `get_or_create` the row
(created rows take the column default `is_available=True`). -/

def ensure_availability_record (inv : CarInv) (day : ℤ) : CarInv × Bool :=
  let b := (inv day).getD true
  (inv.upd day b, b)

/-- The `is_available` flag a read observes on a date (absent row = `True`). -/

def carFlag (inv : CarInv) (day : ℤ) : Bool :=
  (inv day).getD true

/-- One reason entry of `cars.services.check_availability`
(`'Drop-off date must be after pick-up date'` or `f'Car unavailable on {day}'`). -/

inductive CarReason where
  | dropoffNotAfterPickup
  | unavailableOn (day : ℤ)
deriving DecidableEq

/-- Result dataclass `cars.services.CarAvailabilityResult`. -/

structure CarAvailabilityResult where
  pickup_date : ℤ
  dropoff_date : ℤ
  available : Bool
  reasons : List CarReason
deriving DecidableEq

/-- The per-day loop of `cars.services.check_availability`. -/

def carCheckDays : List ℤ → CarInv → CarInv × List CarReason
  | [], inv => (inv, [])
  | day :: rest, inv =>
      let e := ensure_availability_record inv day
      let r := carCheckDays rest e.1
      (r.1, (if e.2 = false then [.unavailableOn day] else []) ++ r.2)

/-- `cars.services.check_availability`: an inverted date range is itself a
reason, and every day of `[pickup, dropoff)` with `is_available=False` adds
one more. -/

def cars.check_availability (pickup_date dropoff_date : ℤ) (inv : CarInv) :
    CarInv × CarAvailabilityResult :=
  let head : List CarReason :=
    if dropoff_date ≤ pickup_date then [.dropoffNotAfterPickup] else []
  let r := carCheckDays (daterange pickup_date dropoff_date) inv
  (r.1, ⟨pickup_date, dropoff_date, (head ++ r.2).isEmpty, head ++ r.2⟩)

/-- `cars.services.mark_availability`: set `is_available` on every day of the
range. -/

def mark_availability (pickup_date dropoff_date : ℤ) (is_available : Bool)
    (inv : CarInv) : CarInv :=
  (daterange pickup_date dropoff_date).foldl
    (fun acc day => ((ensure_availability_record acc day).1).upd day is_available) inv

/-- `cars.services.calculate_total_price`: the flat per-trip price; the date
arguments are ignored. -/

def cars.calculate_total_price (car : Car) (pickup_date dropoff_date : ℤ) : ℚ :=
  car.price_per_trip

/-- A row of `cars.models.CarBooking` as created by `create_booking`. -/

structure CarBookingRow where
  reference_number : List Char
  pickup_location : List Char
  dropoff_location : List Char
  pickup_date : ℤ
  dropoff_date : ℤ
  pickup_time : Option ℤ
  pickup_address : List Char
  first_name : List Char
  last_name : List Char
  contact_number : List Char
  total_price : ℚ
  payment_status : PayStatus
  payment_reference : List Char
  contact_email : List Char
deriving DecidableEq

/-- The database state touched by the car booking service. -/

structure CarDB where
  inv : CarInv
  bookings : List CarBookingRow
  payments : List PaymentRow

/-- Exceptions escaping `cars.services.create_booking`. -/

inductive CarErr where
  | availability (reasons : List CarReason)
  | payment
deriving DecidableEq

/-- The `with transaction.atomic():` block of `cars.services.create_booking`:
mark the days unavailable, charge the gateway, write the rows.  On a gateway
exception the days are re-marked available and the exception re-raised. -/

def cars.bookingTransaction (pickup_location dropoff_location : List Char)
    (pickup_date dropoff_date : ℤ) (pickup_time : Option ℤ)
    (pickup_address first_name last_name contact_number contact_email : List Char)
    (payment : Option PaymentResult) (uuidHex : List Char) (total_price : ℚ)
    (dbA : CarDB) : CarDB × Except CarErr CarBookingRow :=
  let inv2 := mark_availability pickup_date dropoff_date false dbA.inv
  let db2 : CarDB := { dbA with inv := inv2 }
  match payment with
  | none =>
      -- `except Exception`: re-mark the days available, then re-raise.
      let inv3 := mark_availability pickup_date dropoff_date true db2.inv
      ({ db2 with inv := inv3 }, .error .payment)
  | some pay =>
      let booking : CarBookingRow :=
        { reference_number := referenceNumberSave [] uuidHex
          pickup_location := pickup_location
          dropoff_location := dropoff_location
          pickup_date := pickup_date
          dropoff_date := dropoff_date
          pickup_time := pickup_time
          pickup_address := pickup_address
          first_name := first_name
          last_name := last_name
          contact_number := contact_number
          total_price := total_price
          payment_status := if pay.is_success then .settled else .pending
          payment_reference := pay.reference
          contact_email := contact_email }
      ({ db2 with
          bookings := db2.bookings ++ [booking]
          payments := db2.payments ++ [store_payment_record total_price pay] },
        .ok booking)

/-- `cars.services.create_booking` (same shape as the hotel service; the
rollback on payment failure re-marks every day of the range available). -/

def cars.create_booking (car : Car)
    (pickup_location dropoff_location : List Char)
    (pickup_date dropoff_date : ℤ) (pickup_time : Option ℤ)
    (pickup_address first_name last_name contact_number contact_email : List Char)
    (payment : Option PaymentResult) (uuidHex : List Char)
    (db : CarDB) : CarDB × Except CarErr CarBookingRow :=
  let c := cars.check_availability pickup_date dropoff_date db.inv
  let db1 : CarDB := { db with inv := c.1 }
  if c.2.available = false then
    (db1, .error (.availability c.2.reasons))
  else
    let total_price := cars.calculate_total_price car pickup_date dropoff_date
    atomically db1 (cars.bookingTransaction pickup_location dropoff_location
      pickup_date dropoff_date pickup_time pickup_address first_name last_name
      contact_number contact_email payment uuidHex total_price)

/-! ## `flights.services` — airport label handling (Python string operations) -/

/-- Python `str.strip()`. -/

def trimStr (s : List Char) : List Char :=
  ((s.dropWhile Char.isWhitespace).reverse.dropWhile Char.isWhitespace).reverse

/-- Python `str.lower()` (ASCII suffices for the labels involved). -/

def lowerStr (s : List Char) : List Char := s.map Char.toLower

/-- Fuel-indexed worker for `str.replace`: replace non-overlapping occurrences
of `old` left to right.  The fuel is the string length, enough for every step
to consume at least one character. -/

def replaceAllFuel (old new : List Char) : ℕ → List Char → List Char
  | 0, s => s
  | _ + 1, [] => []
  | fuel + 1, c :: t =>
      if old ≠ [] ∧ old.isPrefixOf (c :: t) then
        new ++ replaceAllFuel old new fuel ((c :: t).drop old.length)
      else
        c :: replaceAllFuel old new fuel t

/-- Python `s.replace(old, new)` (for the non-empty patterns used here). -/

def replaceAll (s old new : List Char) : List Char :=
  replaceAllFuel old new s.length s

/-- Python `str.split()` with no argument: split on whitespace runs, dropping
empty groups. -/

def splitWs (s : List Char) : List (List Char) :=
  (s.foldr
    (fun c acc =>
      if c.isWhitespace then [] :: acc
      else
        match acc with
        | [] => [[c]]
        | g :: gs => (c :: g) :: gs)
    [[]]).filter (fun g => g ≠ [])

/-- Python `' '.join(groups)`. -/

def joinSp (groups : List (List Char)) : List Char :=
  (groups.intersperse [' ']).flatten

/-- Does `hay` contain `needle` as a contiguous substring? -/

def hasSubstr (needle : List Char) : List Char → Bool
  | [] => needle.isEmpty
  | c :: t => needle.isPrefixOf (c :: t) || hasSubstr needle t

/-- Django `field__icontains=needle`: case-insensitive containment. -/

def icontains (field needle : List Char) : Bool :=
  hasSubstr (lowerStr needle) (lowerStr field)

/-- Python `set.add` on a set represented as a duplicate-free list. -/

def setAdd (l : List (List Char)) (x : List Char) : List (List Char) :=
  if x ∈ l then l else l ++ [x]

/-- `flights.services._airport_variants`: common label variations of an
airport string (normalising the space before a closing parenthesis). -/

def _airport_variants (value : List Char) : List (List Char) :=
  let raw_value := trimStr value
  if raw_value = [] then []
  else
    let n0 := replaceAll raw_value [' ', ')'] [')']
    let normalized := joinSp (splitWs n0)
    let variants := setAdd (setAdd [] raw_value) normalized
    let variants :=
      if ')' ∈ raw_value then
        setAdd (setAdd variants (replaceAll raw_value [')'] [' ', ')']))
          (replaceAll raw_value [' ', ')'] [')'])
      else variants
    let variants :=
      if ')' ∈ normalized then
        setAdd variants (replaceAll normalized [')'] [' ', ')'])
      else variants
    ((variants.filter (fun v => v ≠ [])).map trimStr).dedup

/-! ## `flights.models` and `flights.services` — flights, seats, search -/

/-- A `datetime` value, split into its date (day number) and time of day. -/

structure DT where
  day : ℤ
  minute : ℤ
deriving DecidableEq

/-- Chronological order on datetimes (used by `order_by('departure_time')`). -/

def DT.le (a b : DT) : Prop :=
  a.day < b.day ∨ (a.day = b.day ∧ a.minute ≤ b.minute)

instance : DecidableRel DT.le := fun a b => by
  unfold DT.le
  infer_instance

/-- `flights.models.FlightSeat.Leg`. -/

inductive FlightLeg where
  | outbound
  | returnLeg
deriving DecidableEq

/-- A row of `flights.models.FlightSeat`. -/

structure FlightSeatRec where
  id : ℕ
  leg : FlightLeg
  seat_number : List Char
  seat_class : List Char
  price_modifier : ℚ
  is_reserved : Bool
deriving DecidableEq

/-- A row of `flights.models.Flight` (the columns `search_flights` reads),
carrying its related `seats`.  `return_origin`/`return_destination` are
non-nullable `CharField(blank=True)` columns, so the `__isnull=True` branches
of the search never match and `''` marks the absent value. -/

structure FlightRec where
  code : List Char
  origin : List Char
  destination : List Char
  departure_time : DT
  is_active : Bool
  return_departure_time : Option DT
  return_origin : List Char
  return_destination : List Char
  seat_capacity : ℤ
  base_price : ℚ
  return_base_price : ℚ
  seats : List FlightSeatRec
deriving DecidableEq

/-- The `available_seat_count` annotation of `search_flights`: the number of
unreserved outbound-leg seats of the flight. -/

def availableSeatCount (f : FlightRec) : ℤ :=
  ((f.seats.filter (fun s => !s.is_reserved && (s.leg == FlightLeg.outbound))).length : ℤ)

/-- Lexicographic (database string) order used by `order_by('seat_number')`. -/

def charListLt : List Char → List Char → Bool
  | [], [] => false
  | [], _ :: _ => true
  | _ :: _, [] => false
  | a :: as, b :: bs => if a < b then true else if b < a then false else charListLt as bs

/-- Ascending `seat_number` order on seat rows. -/

def seatNumberLe (s t : FlightSeatRec) : Prop :=
  charListLt t.seat_number s.seat_number = false

instance : DecidableRel seatNumberLe := fun s t => by
  unfold seatNumberLe
  infer_instance

/-- Ascending `departure_time` order on flights. -/

def departureTimeLe (f g : FlightRec) : Prop :=
  DT.le f.departure_time g.departure_time

instance : DecidableRel departureTimeLe := fun f g => by
  unfold departureTimeLe
  infer_instance

/-- The `if return_date:` stage of `search_flights`: keep flights with no
return leg or one departing on/after the requested return date. -/

def applyReturnDateFilter (return_date : Option DT) (queryset : List FlightRec) :
    List FlightRec :=
  match return_date with
  | none => queryset
  | some rd =>
      queryset.filter (fun f =>
        match f.return_departure_time with
        | none => true
        | some rdt => decide (rd.day ≤ rdt.day))

/-- The `if return_origin:` stage of `search_flights`: keep flights whose
`return_origin` is blank or matches one of the label variants. -/

def applyReturnOriginFilter (return_origin : Option (List Char))
    (queryset : List FlightRec) : List FlightRec :=
  match return_origin with
  | none => queryset
  | some ro =>
      if ro = [] then queryset
      else
        let vs := (let v := _airport_variants ro; if v = [] then [ro] else v).filter
          (fun v => v ≠ [])
        if vs = [] then queryset
        else
          queryset.filter (fun f =>
            (f.return_origin == ([] : List Char)) || vs.any (fun v => icontains f.return_origin v))

/-- The `if return_destination:` stage of `search_flights`. -/

def applyReturnDestinationFilter (return_destination : Option (List Char))
    (queryset : List FlightRec) : List FlightRec :=
  match return_destination with
  | none => queryset
  | some rdst =>
      if rdst = [] then queryset
      else
        let vs := (let v := _airport_variants rdst; if v = [] then [rdst] else v).filter
          (fun v => v ≠ [])
        if vs = [] then queryset
        else
          queryset.filter (fun f =>
            (f.return_destination == ([] : List Char)) ||
              vs.any (fun v => icontains f.return_destination v))

/-- `flights.services.search_flights`: flights on the requested departure
date with enough unreserved outbound seats — the threshold is
`max(1, min(7, passenger_count))` — whose labels match the origin and
destination variants, filtered further by the optional return criteria, in
`departure_time` order. -/

def flights.search_flights (flights : List FlightRec)
    (origin destination : List Char) (departure_date : DT)
    (return_date : Option DT)
    (return_origin return_destination : Option (List Char))
    (passenger_count : ℤ) : List FlightRec :=
  let queryset := flights.filter (fun f =>
    (f.departure_time.day == departure_date.day) && f.is_active)
  let queryset := queryset.filter (fun f =>
    decide (max 1 (min 7 passenger_count) ≤ availableSeatCount f))
  let origin_variants :=
    let v := _airport_variants origin
    if v = [] then [origin] else v
  let queryset := queryset.filter (fun f =>
    origin_variants.any (fun v => icontains f.origin v))
  let destination_variants :=
    let v := _airport_variants destination
    if v = [] then [destination] else v
  let queryset := queryset.filter (fun f =>
    destination_variants.any (fun v => icontains f.destination v))
  let queryset := applyReturnDateFilter return_date queryset
  let queryset := applyReturnOriginFilter return_origin queryset
  let queryset := applyReturnDestinationFilter return_destination queryset
  queryset.insertionSort departureTimeLe

/-! ## `flights.services` — booking creation -/

/-- `flights.services.calculate_total_price`: per-seat price quantized at
each step, plus the (quantized) flat return fare per seat, the sum quantized
again. -/

def flights.calculate_total_price (seats : List FlightSeatRec) (base_price : ℚ)
    (return_base_price : Option ℚ) : ℚ :=
  let return_component := quantize2 (return_base_price.getD 0)
  let total := seats.foldl
    (fun total seat => total + (quantize2 (base_price * seat.price_modifier) + return_component))
    0
  quantize2 total

/-- The `date_of_birth` entry of one passenger's detail dict: absent, a
`date`, a `datetime` (its `.date()` is taken), or a string
(`none` = `date.fromisoformat` raises `ValueError`). -/

inductive DobInput where
  | missing
  | dateVal (d : ℤ)
  | datetimeVal (d : ℤ)
  | strVal (parsed : Option ℤ)
deriving DecidableEq

/-- Resolve a present `date_of_birth` entry to a date, if possible. -/

def dobResolve : DobInput → Option ℤ
  | .missing => none
  | .dateVal d => some d
  | .datetimeVal d => some d
  | .strVal p => p

/-- One entry of the `passenger_details` list handed to `create_booking`. -/

structure PassengerInput where
  first_name : List Char
  last_name : List Char
  contact_number : List Char
  date_of_birth : DobInput
  main_luggage_weight : WeightInput
  hand_luggage_weight : WeightInput
deriving DecidableEq

/-- One entry of the validated `passenger_detail_list`. -/

structure PassengerDetailRow where
  first_name : List Char
  last_name : List Char
  contact_number : List Char
  date_of_birth : ℤ
  main_luggage_weight : ℚ
  hand_luggage_weight : ℚ
  luggage_fee : ℚ
deriving DecidableEq

/-- The `AvailabilityError` variants of `flights.services.create_booking`
and `reserve_seats` (indices count passengers from 1, as `enumerate(...,
start=1)` does). -/

inductive FlightAvailReason where
  | notEnoughSeats
  | passengerMismatch
  | incompleteDetails (index : ℕ)
  | invalidDateOfBirth (index : ℕ)
  | futureDateOfBirth (index : ℕ)
  | handLuggageExceedsLimit (index : ℕ)
  | seatNoLongerAvailable (seat_number : List Char)
deriving DecidableEq

/-- Exceptions escaping `flights.services.create_booking`. -/

inductive FlightErr where
  | availability (r : FlightAvailReason)
  | payment
deriving DecidableEq

/-- The per-passenger validation loop of `flights.services.create_booking`:
names must be non-blank, the date of birth present, parseable and not in the
future, hand luggage within `HAND_LUGGAGE_LIMIT_KG`; each passenger
contributes a checked-luggage fee computed from the main luggage weight. -/

def buildPassengerDetails (today : ℤ) :
    ℕ → List PassengerInput → Except FlightAvailReason (List PassengerDetailRow × List ℚ)
  | _, [] => .ok ([], [])
  | index, detail :: rest =>
      let first_name := trimStr detail.first_name
      let last_name := trimStr detail.last_name
      if first_name = [] ∨ last_name = [] ∨ detail.date_of_birth = .missing then
        .error (.incompleteDetails index)
      else
        match dobResolve detail.date_of_birth with
        | none => .error (.invalidDateOfBirth index)
        | some dob_value =>
            if today < dob_value then .error (.futureDateOfBirth index)
            else
              let main_weight := normalize_weight_input detail.main_luggage_weight
              let hand_weight := normalize_weight_input detail.hand_luggage_weight
              if HAND_LUGGAGE_LIMIT_KG < hand_weight then
                .error (.handLuggageExceedsLimit index)
              else
                let luggage_fee := calculate_luggage_overweight_fee main_weight
                match buildPassengerDetails today (index + 1) rest with
                | .error e => .error e
                | .ok (rows, fees) =>
                    .ok ({ first_name := first_name
                           last_name := last_name
                           contact_number := trimStr detail.contact_number
                           date_of_birth := dob_value
                           main_luggage_weight := main_weight
                           hand_luggage_weight := hand_weight
                           luggage_fee := luggage_fee } :: rows,
                         luggage_fee :: fees)

/-- `flights.services.reserve_seats`: mark each selected seat reserved,
raising `AvailabilityError` if one is already taken. -/

def flights.reserve_seats :
    List FlightSeatRec → List FlightSeatRec → List FlightSeatRec × Option (List Char)
  | [], seats => (seats, none)
  | s :: rest, seats =>
      if s.is_reserved then (seats, some s.seat_number)
      else
        flights.reserve_seats rest
          (seats.map (fun t => if t.id = s.id then { t with is_reserved := true } else t))

/-- `flights.services.release_seats`: clear the reserved flag of each seat. -/

def flights.release_seats (sel : List FlightSeatRec) (seats : List FlightSeatRec) :
    List FlightSeatRec :=
  sel.foldl
    (fun acc s => acc.map (fun t => if t.id = s.id then { t with is_reserved := false } else t))
    seats

/-- A row of `flights.models.FlightBooking` as created by `create_booking`. -/

structure FlightBookingRow where
  reference_number : List Char
  passengers : ℕ
  total_price : ℚ
  payment_status : PayStatus
  payment_reference : List Char
  contact_email : List Char
  notify_admin : Bool
deriving DecidableEq

/-- A row of `flights.models.FlightBookingSeat` as bulk-created by
`create_booking` (detail fields default to blanks when no passenger details
were supplied). -/

structure FlightBookingSeatRow where
  seat_id : ℕ
  passenger_first_name : List Char
  passenger_last_name : List Char
  passenger_contact_number : List Char
  passenger_date_of_birth : Option ℤ
  main_luggage_weight : ℚ
  hand_luggage_weight : ℚ
  luggage_fee : ℚ
deriving DecidableEq

/-- `for index, seat in enumerate(seats)` with
`detail = passenger_detail_list[index] if index < len(...) else {}`. -/

def buildBookingSeatRows :
    List FlightSeatRec → List PassengerDetailRow → List FlightBookingSeatRow
  | [], _ => []
  | seat :: restSeats, details =>
      let row : FlightBookingSeatRow :=
        match details with
        | [] =>
            { seat_id := seat.id
              passenger_first_name := []
              passenger_last_name := []
              passenger_contact_number := []
              passenger_date_of_birth := none
              main_luggage_weight := 0
              hand_luggage_weight := 0
              luggage_fee := 0 }
        | d :: _ =>
            { seat_id := seat.id
              passenger_first_name := d.first_name
              passenger_last_name := d.last_name
              passenger_contact_number := d.contact_number
              passenger_date_of_birth := some d.date_of_birth
              main_luggage_weight := d.main_luggage_weight
              hand_luggage_weight := d.hand_luggage_weight
              luggage_fee := d.luggage_fee }
      row :: buildBookingSeatRows restSeats details.tail

/-- The database state touched by the flight booking service: the chosen
flight's `FlightSeat` rows plus the booking, booking-seat and payment
tables. -/

structure FlightDB where
  seats : List FlightSeatRec
  bookings : List FlightBookingRow
  bookingSeats : List FlightBookingSeatRow
  payments : List PaymentRow

/-- The `with transaction.atomic():` block of `flights.services.create_booking`:
reserve the selected seats, charge the gateway, write the booking, booking-seat
and payment rows.  On a gateway exception the seats are released and the
exception re-raised. -/

def flights.bookingTransaction (seats : List FlightSeatRec)
    (passenger_detail_list : List PassengerDetailRow)
    (contact_email : List Char) (notify_admin : Bool)
    (payment : Option PaymentResult) (uuidHex : List Char) (total_price : ℚ)
    (dbA : FlightDB) : FlightDB × Except FlightErr FlightBookingRow :=
  let r := flights.reserve_seats seats dbA.seats
  match r.2 with
  | some sn =>
      ({ dbA with seats := r.1 }, .error (.availability (.seatNoLongerAvailable sn)))
  | none =>
      let db2 : FlightDB := { dbA with seats := r.1 }
      match payment with
      | none =>
          -- `except Exception`: release the seats, then re-raise.
          ({ db2 with seats := flights.release_seats seats db2.seats },
            .error .payment)
      | some pay =>
          let booking : FlightBookingRow :=
            { reference_number := referenceNumberSave [] uuidHex
              passengers := seats.length
              total_price := total_price
              payment_status := if pay.is_success then .settled else .pending
              payment_reference := pay.reference
              contact_email := contact_email
              notify_admin := notify_admin }
          ({ db2 with
              bookings := db2.bookings ++ [booking]
              bookingSeats := db2.bookingSeats ++
                buildBookingSeatRows seats passenger_detail_list
              payments := db2.payments ++ [store_payment_record total_price pay] },
            .ok booking)

/-- `flights.services.create_booking`.  The first `max(1, passenger_count)`
unreserved outbound seats (in `seat_number` order) are selected; passenger
details are validated before the transaction; inside the transaction the
seats are reserved, the gateway charged, and the booking, seat and payment
rows written.  `payment = none` models a provider exception: the seats are
released and the exception re-raised (rolling the transaction back). -/

def flights.create_booking (flight_base_price flight_return_base_price : ℚ)
    (contact_email : List Char) (notify_admin : Bool) (passenger_count : ℤ)
    (passenger_details : Option (List PassengerInput))
    (payment : Option PaymentResult) (uuidHex : List Char) (today : ℤ)
    (db : FlightDB) : FlightDB × Except FlightErr FlightBookingRow :=
  let passenger_count := max 1 passenger_count
  let seats := ((db.seats.filter
      (fun s => !s.is_reserved && (s.leg == FlightLeg.outbound))).insertionSort
      seatNumberLe).take passenger_count.toNat
  if (seats.length : ℤ) < passenger_count then
    (db, .error (.availability .notEnoughSeats))
  else
    let validated : Except FlightAvailReason (List PassengerDetailRow × List ℚ) :=
      match passenger_details with
      | none => .ok ([], [])
      | some details =>
          if details.length ≠ seats.length then .error .passengerMismatch
          else buildPassengerDetails today 1 details
    match validated with
    | .error r => (db, .error (.availability r))
    | .ok (passenger_detail_list, luggage_fees) =>
        let base_total :=
          flights.calculate_total_price seats flight_base_price (some flight_return_base_price)
        let luggage_total := quantize2 (luggage_fees.foldl (· + ·) 0)
        let total_price := quantize2 (base_total + luggage_total)
        atomically db (flights.bookingTransaction seats passenger_detail_list
          contact_email notify_admin payment uuidHex total_price)

/-! ## Inventory invariants (C4) -/

/-- Every stored `available_rooms` count lies in `[0, total_rooms]`. -/

def HotelInvOK (rt : HotelRoomType) (inv : HotelInv) : Prop :=
  ∀ d v, inv d = some v → 0 ≤ v ∧ v ≤ rt.total_rooms

/-- Every stored `available_rooms` count is non-negative. -/

def HotelInvNonneg (inv : HotelInv) : Prop :=
  ∀ d v, inv d = some v → 0 ≤ v

/-- The number of unreserved outbound-leg `FlightSeat` rows (what both
`search_flights`'s annotation and `create_booking`'s seat query count). -/

def unreservedOutboundCount (seats : List FlightSeatRec) : ℤ :=
  ((seats.filter (fun s => !s.is_reserved && (s.leg == FlightLeg.outbound))).length : ℤ)

/-- A seat row of the example flight. -/

def seatEx (i : ℕ) : FlightSeatRec :=
  { id := i
    leg := .outbound
    seat_number := [Char.ofNat (49 + i)]
    seat_class := ['E']
    price_modifier := 1
    is_reserved := false }

/-- An example flight with seven unreserved outbound seats. -/

def flightEx : FlightRec :=
  { code := ['F', '1']
    origin := ['A', 'A', 'A']
    destination := ['B', 'B', 'B']
    departure_time := ⟨0, 600⟩
    is_active := true
    return_departure_time := none
    return_origin := []
    return_destination := []
    seat_capacity := 7
    base_price := 100
    return_base_price := 0
    seats := (List.range 7).map seatEx }

/-- A passenger detail whose hand luggage exceeds the 7 kg limit. -/

def passengerHeavyHand : PassengerInput :=
  { first_name := ['J', 'o']
    last_name := ['D', 'o', 'e']
    contact_number := []
    date_of_birth := .dateVal 0
    main_luggage_weight := .value 10
    hand_luggage_weight := .value 8 }

/-- A passenger detail whose hand luggage is within the 7 kg limit. -/

def passengerLightHand : PassengerInput :=
  { first_name := ['J', 'o']
    last_name := ['D', 'o', 'e']
    contact_number := []
    date_of_birth := .dateVal 0
    main_luggage_weight := .value 10
    hand_luggage_weight := .value 5 }

/-- A one-seat flight database for the hand-luggage witnesses. -/

def flightDBEx : FlightDB :=
  { seats := [seatEx 0], bookings := [], bookingSeats := [], payments := [] }

/-! ## All-or-nothing booking creation (C1) -/

/-- Every stored count is within capacity (the half of the C4 invariant that
the clamping read cannot restore). -/

def HotelInvLe (rt : HotelRoomType) (inv : HotelInv) : Prop :=
  ∀ d v, inv d = some v → v ≤ rt.total_rooms

/-- An example car for the rollback witness. -/

def carEx : Car :=
  { company := ['A', 'c', 'm', 'e']
    model := ['G', 'o']
    category := ['S', 'U', 'V']
    seats := 4
    luggage_capacity := 2
    location := ['X']
    price_per_trip := 50
    is_active := true }

/-- A hotel database with one stored (full) inventory row. -/

def hotelDBEx : HotelDB :=
  { inv := fun d => if d = 0 then some 2 else none, bookings := [], payments := [] }

/-- A car database with no stored availability rows. -/

def carDBEx : CarDB :=
  { inv := fun _ => none, bookings := [], payments := [] }

theorem roundHalfEven_nonneg {q : ℚ} (hq : 0 ≤ q) : 0 ≤ roundHalfEven q := by
  have hf : (0 : ℤ) ≤ ⌊q⌋ := by
    rw [Int.le_floor]
    exact_mod_cast hq
  unfold roundHalfEven
  dsimp only
  split
  · exact hf
  · split
    · omega
    · split
      · exact hf
      · omega

theorem roundHalfEven_intCast (n : ℤ) : roundHalfEven (n : ℚ) = n := by
  unfold roundHalfEven
  simp only [Int.floor_intCast, sub_self]
  norm_num

theorem quantize2_nonneg {q : ℚ} (hq : 0 ≤ q) : 0 ≤ quantize2 q := by
  unfold quantize2
  have h : (0 : ℤ) ≤ roundHalfEven (q * 100) :=
    roundHalfEven_nonneg (by positivity)
  positivity

theorem quantize2_intCast (n : ℤ) : quantize2 (n : ℚ) = n := by
  unfold quantize2
  have : ((n : ℚ) * 100) = ((n * 100 : ℤ) : ℚ) := by push_cast; ring
  rw [this, roundHalfEven_intCast]
  push_cast
  ring

/-- A quantized value is an integer number of hundredths. -/

theorem quantize2_hundredths (q : ℚ) : ∃ n : ℤ, quantize2 q = (n : ℚ) / 100 :=
  ⟨roundHalfEven (q * 100), rfl⟩

theorem mem_daterange {s e d : ℤ} : d ∈ daterange s e ↔ s ≤ d ∧ d < e := by
  unfold daterange
  simp only [List.mem_map, List.mem_range]
  constructor
  · rintro ⟨i, hi, hd⟩
    omega
  · rintro ⟨h1, h2⟩
    exact ⟨(d - s).toNat, by omega, by omega⟩

theorem daterange_nodup (s e : ℤ) : (daterange s e).Nodup := by
  unfold daterange
  refine List.Nodup.map ?_ (List.nodup_range _)
  intro a b h
  have : (s : ℤ) + a = s + b := h
  omega

theorem atomically_error {σ ε β : Type} (db : σ) (body : σ → σ × Except ε β)
    {e : ε} (h : (body db).2 = .error e) : atomically db body = (db, .error e) := by
  unfold atomically
  rcases hb : body db with ⟨db1, r⟩
  rw [hb] at h
  cases r with
  | ok b => simp at h
  | error e2 =>
      simp only at h
      cases h
      rfl

theorem atomically_ok {σ ε β : Type} (db : σ) (body : σ → σ × Except ε β)
    {b : β} (h : (body db).2 = .ok b) : atomically db body = ((body db).1, .ok b) := by
  unfold atomically
  rcases hb : body db with ⟨db1, r⟩
  rw [hb] at h
  cases r with
  | ok b2 =>
      simp only at h
      cases h
      rfl
  | error e2 => simp at h

theorem recVal_le_total (rt : HotelRoomType) (inv : HotelInv) (d : ℤ) :
    recVal rt inv d ≤ rt.total_rooms := by
  unfold recVal
  dsimp only
  omega

theorem ensure_inventory_snd (rt : HotelRoomType) (inv : HotelInv) (d : ℤ) :
    (ensure_inventory rt inv d).2 = recVal rt inv d := rfl

theorem ensure_inventory_fst (rt : HotelRoomType) (inv : HotelInv) (d x : ℤ) :
    (ensure_inventory rt inv d).1 x = if x = d then some (recVal rt inv d) else inv x := rfl

/-- `_ensure_inventory` never changes the count observed by reads. -/

theorem recVal_ensure (rt : HotelRoomType) (inv : HotelInv) (d x : ℤ) :
    recVal rt (ensure_inventory rt inv d).1 x = recVal rt inv x := by
  by_cases h : x = d
  · subst h
    conv_lhs => unfold recVal
    rw [ensure_inventory_fst, if_pos rfl]
    simp only [Option.getD_some]
    have h2 := recVal_le_total rt inv x
    rw [if_neg (by omega)]
  · conv_lhs => unfold recVal
    rw [ensure_inventory_fst, if_neg h]
    rfl

theorem hotelCheckDays_reasons (rt : HotelRoomType) (rooms : ℤ) :
    ∀ (days : List ℤ) (inv : HotelInv),
      (hotelCheckDays rt rooms days inv).2 =
        (days.filter (fun d => recVal rt inv d < rooms)).map
          (fun d => .onlyRoomsLeftOn (recVal rt inv d) d)
  | [], inv => rfl
  | night :: rest, inv => by
      unfold hotelCheckDays
      dsimp only
      rw [hotelCheckDays_reasons rt rooms rest (ensure_inventory rt inv night).1]
      have hrec : ∀ x, recVal rt (ensure_inventory rt inv night).1 x = recVal rt inv x :=
        recVal_ensure rt inv night
      rw [ensure_inventory_snd]
      simp only [List.filter_cons, hrec]
      by_cases h : recVal rt inv night < rooms
      · simp [h]
      · simp [h]

theorem hotelCheckDays_recVal (rt : HotelRoomType) (rooms : ℤ) :
    ∀ (days : List ℤ) (inv : HotelInv) (x : ℤ),
      recVal rt (hotelCheckDays rt rooms days inv).1 x = recVal rt inv x
  | [], inv, x => rfl
  | night :: rest, inv, x => by
      unfold hotelCheckDays
      dsimp only
      rw [hotelCheckDays_recVal rt rooms rest (ensure_inventory rt inv night).1 x,
        recVal_ensure]

theorem ensure_availability_record_fst (inv : CarInv) (day x : ℤ) :
    (ensure_availability_record inv day).1 x =
      if x = day then some (carFlag inv day) else inv x := rfl

theorem carFlag_ensure (inv : CarInv) (day x : ℤ) :
    carFlag (ensure_availability_record inv day).1 x = carFlag inv x := by
  unfold carFlag
  rw [ensure_availability_record_fst]
  by_cases h : x = day
  · subst h
    rw [if_pos rfl]
    rfl
  · rw [if_neg h]

theorem carCheckDays_reasons :
    ∀ (days : List ℤ) (inv : CarInv),
      (carCheckDays days inv).2 =
        (days.filter (fun d => carFlag inv d = false)).map (fun d => .unavailableOn d)
  | [], inv => rfl
  | day :: rest, inv => by
      unfold carCheckDays
      dsimp only
      rw [carCheckDays_reasons rest (ensure_availability_record inv day).1]
      have hrec : ∀ x, carFlag (ensure_availability_record inv day).1 x = carFlag inv x :=
        carFlag_ensure inv day
      have hsnd : (ensure_availability_record inv day).2 = carFlag inv day := rfl
      simp only [List.filter_cons, hrec, hsnd]
      by_cases h : carFlag inv day = false
      · simp [h]
      · simp [h]

theorem carCheckDays_carFlag :
    ∀ (days : List ℤ) (inv : CarInv) (x : ℤ),
      carFlag (carCheckDays days inv).1 x = carFlag inv x
  | [], inv, x => rfl
  | day :: rest, inv, x => by
      unfold carCheckDays
      dsimp only
      rw [carCheckDays_carFlag rest (ensure_availability_record inv day).1 x, carFlag_ensure]

/-! ## Claim theorems -/

/-- C3: the checked-luggage overweight fee is `0.00` for weights up to the
40 kg allowance, and `ceil(w - 40) * 20` (a whole number of currency units,
already at two decimal places) beyond it; in particular 40 kg costs `0.00`
and 41.2 kg costs `40.00`. -/

theorem luggage_overweight_fee_spec :
    (∀ w : ℚ, calculate_luggage_overweight_fee w =
      if w ≤ 40 then 0 else (⌈w - 40⌉ : ℚ) * 20) ∧
    calculate_luggage_overweight_fee 40 = 0 ∧
    calculate_luggage_overweight_fee (206/5) = 40 := by
  have hgen : ∀ w : ℚ, calculate_luggage_overweight_fee w =
      if w ≤ 40 then 0 else (⌈w - 40⌉ : ℚ) * 20 := by
    intro w
    unfold calculate_luggage_overweight_fee OVERWEIGHT_INCLUDED_KG OVERWEIGHT_FEE_PER_KG
    dsimp only
    by_cases h : w ≤ 40
    · rw [if_pos (by linarith), if_pos h]
    · rw [if_neg (by linarith), if_neg h]
      have : (⌈w - 40⌉ : ℚ) * 20 = ((⌈w - 40⌉ * 20 : ℤ) : ℚ) := by push_cast; ring
      rw [this, quantize2_intCast]
  refine ⟨hgen, ?_, ?_⟩
  · rw [hgen]
    norm_num
  · rw [hgen]
    norm_num
    rw [show ⌈(6/5 : ℚ)⌉ = 2 by
      rw [Int.ceil_eq_iff]
      norm_num]
    norm_num

/-- C9: the car rental total price is the car's flat per-trip price,
independent of the rental dates. -/

theorem car_price_flat_per_trip :
    ∀ (car : Car) (p1 d1 p2 d2 : ℤ),
      cars.calculate_total_price car p1 d1 = car.price_per_trip ∧
      cars.calculate_total_price car p1 d1 = cars.calculate_total_price car p2 d2 :=
  fun _ _ _ _ _ => ⟨rfl, rfl⟩

/-- C10: `normalize_weight_input` is total and never negative: `None`, the
empty string, unparsable strings and negative numbers all yield `0.00`; any
parseable non-negative value is quantized to two decimals, so luggage fees
are always computed from a non-negative two-decimal weight. -/

theorem normalize_weight_input_spec :
    ∀ inp : WeightInput,
      0 ≤ normalize_weight_input inp ∧
      (∃ n : ℕ, normalize_weight_input inp = (n : ℚ) / 100) ∧
      normalize_weight_input .null = 0 ∧
      normalize_weight_input .emptyStr = 0 ∧
      normalize_weight_input .unparsable = 0 ∧
      (∀ q : ℚ, q < 0 → normalize_weight_input (.value q) = 0) ∧
      (∀ q : ℚ, 0 ≤ q → normalize_weight_input (.value q) = quantize2 q) := by
  have hval : ∀ q : ℚ, 0 ≤ normalize_weight_input (.value q) ∧
      ∃ n : ℕ, normalize_weight_input (.value q) = (n : ℚ) / 100 := by
    intro q
    simp only [normalize_weight_input]
    by_cases h : q < 0
    · rw [if_pos h]
      exact ⟨le_refl 0, 0, by norm_num⟩
    · rw [if_neg h]
      push_neg at h
      refine ⟨quantize2_nonneg h, (roundHalfEven (q * 100)).toNat, ?_⟩
      unfold quantize2
      have hr : (0 : ℤ) ≤ roundHalfEven (q * 100) := roundHalfEven_nonneg (by positivity)
      have hc : (((roundHalfEven (q * 100)).toNat : ℕ) : ℚ) = ((roundHalfEven (q * 100) : ℤ) : ℚ) := by
        exact_mod_cast congrArg (fun z : ℤ => (z : ℚ)) (Int.toNat_of_nonneg hr)
      rw [hc]
  intro inp
  refine ⟨?_, ?_, ?_, ?_, ?_, ?_, ?_⟩
  · cases inp with
    | null => exact le_refl 0
    | emptyStr => exact le_refl 0
    | unparsable => exact le_refl 0
    | value q => exact (hval q).1
  · cases inp with
    | null => exact ⟨0, by simp [normalize_weight_input]⟩
    | emptyStr => exact ⟨0, by simp [normalize_weight_input]⟩
    | unparsable => exact ⟨0, by simp [normalize_weight_input]⟩
    | value q => exact (hval q).2
  · simp [normalize_weight_input]
  · simp [normalize_weight_input]
  · simp [normalize_weight_input]
  · intro q hq
    simp only [normalize_weight_input, if_pos hq]
  · intro q hq
    simp only [normalize_weight_input, if_neg (not_lt.mpr hq)]

/-- Witness for C10 at concrete inputs: a negative weight collapses to zero
and `41.2` is kept (quantized). -/

theorem normalize_weight_input_spec_witness :
    normalize_weight_input (.value (-3)) = 0 ∧
    normalize_weight_input (.value (206/5)) = quantize2 (206/5) := by
  refine ⟨(normalize_weight_input_spec (.value (-3))).2.2.2.2.2.1 (-3) (by norm_num), ?_⟩
  exact (normalize_weight_input_spec (.value (206/5))).2.2.2.2.2.2 (206/5) (by norm_num)

/-- C6: availability checks fail closed on an inverted date range: for
`start >= end` both the hotel and the car `check_availability` return
`available=False` with an invalid-range reason in the list. -/

theorem check_availability_fails_closed :
    ∀ (rt : HotelRoomType) (rooms ci co : ℤ) (hinv : HotelInv)
      (pickup dropoff : ℤ) (cinv : CarInv),
      co ≤ ci → dropoff ≤ pickup →
      ((hotels.check_availability rt ci co rooms hinv).2.available = false ∧
        HotelReason.invalidRange ∈ (hotels.check_availability rt ci co rooms hinv).2.reasons) ∧
      ((cars.check_availability pickup dropoff cinv).2.available = false ∧
        CarReason.dropoffNotAfterPickup ∈ (cars.check_availability pickup dropoff cinv).2.reasons) := by
  intro rt rooms ci co hinv pickup dropoff cinv hh hc
  constructor
  · unfold hotels.check_availability
    rw [if_pos hh]
    exact ⟨rfl, List.mem_singleton.mpr rfl⟩
  · unfold cars.check_availability
    dsimp only
    rw [if_pos hc]
    constructor
    · rfl
    · exact List.mem_append_left _ (List.mem_singleton.mpr rfl)

/-- Witness for C6: a one-point instance with `check_in = check_out`. -/

theorem check_availability_fails_closed_witness :
    ((hotels.check_availability ⟨100, 2⟩ 5 5 1 (fun _ => none)).2.available = false ∧
      HotelReason.invalidRange ∈ (hotels.check_availability ⟨100, 2⟩ 5 5 1 (fun _ => none)).2.reasons) ∧
    ((cars.check_availability 7 6 (fun _ => none)).2.available = false ∧
      CarReason.dropoffNotAfterPickup ∈ (cars.check_availability 7 6 (fun _ => none)).2.reasons) :=
  check_availability_fails_closed ⟨100, 2⟩ 1 5 5 (fun _ => none) 7 6 (fun _ => none)
    (by norm_num) (by norm_num)

/-- The sixteen lowercase hexadecimal digits uppercase into `upHexDigits`. -/

theorem lowHex_toUpper_mem : ∀ c ∈ lowHexDigits, c.toUpper ∈ upHexDigits := by decide

/-- C7: a booking reference is assigned exactly once, at the first save
(stays untouched on later saves), and has the shape `BK-XXXX-XXXXXX` with
4+6 uppercase hexadecimal characters; the generator is a pure function of
its `uuid4().hex` draw (and prefix), consulting no table of existing
bookings, so collision-freedom rests solely on the database unique
constraint. -/

theorem reference_number_spec :
    ∀ uuidHex : List Char,
      uuidHex.length = 32 →
      (∀ c ∈ uuidHex, c ∈ lowHexDigits) →
      (∀ ref : List Char, ref ≠ [] → referenceNumberSave ref uuidHex = ref) ∧
      referenceNumberSave [] uuidHex = generate_reference none uuidHex ∧
      generate_reference none uuidHex ≠ [] ∧
      (∃ g1 g2 : List Char,
        generate_reference none uuidHex = ['B', 'K'] ++ ['-'] ++ g1 ++ ['-'] ++ g2 ∧
        g1.length = 4 ∧ g2.length = 6 ∧
        (∀ c ∈ g1, c ∈ upHexDigits) ∧ (∀ c ∈ g2, c ∈ upHexDigits)) := by
  intro uuidHex hlen hhex
  have hgen : generate_reference none uuidHex =
      ['B', 'K'] ++ ['-'] ++ ((uuidHex.take 10).map Char.toUpper).take 4 ++ ['-'] ++
        ((uuidHex.take 10).map Char.toUpper).drop 4 := rfl
  have huid_len : ((uuidHex.take 10).map Char.toUpper).length = 10 := by
    rw [List.length_map, List.length_take, hlen]
    omega
  have huid_mem : ∀ c ∈ (uuidHex.take 10).map Char.toUpper, c ∈ upHexDigits := by
    intro c hc
    obtain ⟨a, ha, rfl⟩ := List.mem_map.mp hc
    exact lowHex_toUpper_mem a (hhex a (List.mem_of_mem_take ha))
  refine ⟨?_, ?_, ?_, ?_⟩
  · intro ref href
    unfold referenceNumberSave
    rw [if_neg href]
  · unfold referenceNumberSave
    rw [if_pos rfl]
  · rw [hgen]
    simp
  · refine ⟨((uuidHex.take 10).map Char.toUpper).take 4,
      ((uuidHex.take 10).map Char.toUpper).drop 4, hgen, ?_, ?_, ?_, ?_⟩
    · rw [List.length_take, huid_len]
      omega
    · rw [List.length_drop, huid_len]
    · intro c hc
      exact huid_mem c (List.mem_of_mem_take hc)
    · intro c hc
      exact huid_mem c (List.mem_of_mem_drop hc)

/-- Witness for C7 at a concrete `uuid4().hex` draw. -/

theorem reference_number_spec_witness :
    referenceNumberSave ['X'] ("0123456789abcdef0123456789abcdef".toList) = ['X'] ∧
    referenceNumberSave [] ("0123456789abcdef0123456789abcdef".toList) =
      generate_reference none ("0123456789abcdef0123456789abcdef".toList) ∧
    generate_reference none ("0123456789abcdef0123456789abcdef".toList) ≠ [] := by
  have h := reference_number_spec ("0123456789abcdef0123456789abcdef".toList)
    (by decide) (by decide)
  exact ⟨h.1 ['X'] (by decide), h.2.1, h.2.2.1⟩

/-- C2: for a valid range, the hotel availability check succeeds exactly when
every night of `[check_in, check_out)` has at least the requested number of
rooms on its (lazily created, capacity-clamped) inventory row, and the
reasons list carries exactly one entry per deficient night. -/

theorem hotel_check_availability_spec :
    ∀ (rt : HotelRoomType) (rooms ci co : ℤ) (inv : HotelInv),
      ci < co →
      ((hotels.check_availability rt ci co rooms inv).2.available = true ↔
        ∀ d ∈ daterange ci co, rooms ≤ recVal rt inv d) ∧
      (hotels.check_availability rt ci co rooms inv).2.reasons =
        ((daterange ci co).filter (fun d => recVal rt inv d < rooms)).map
          (fun d => HotelReason.onlyRoomsLeftOn (recVal rt inv d) d) := by
  intro rt rooms ci co inv hlt
  unfold hotels.check_availability
  rw [if_neg (by omega)]
  dsimp only
  rw [hotelCheckDays_reasons]
  refine ⟨?_, rfl⟩
  rw [List.isEmpty_iff, List.map_eq_nil_iff, List.filter_eq_nil_iff]
  constructor
  · intro h d hd
    have := h d hd
    simp only [decide_eq_true_eq] at this
    omega
  · intro h d hd
    simp only [decide_eq_true_eq]
    have := h d hd
    omega

/-- Witness for C2: total 3 rooms, one night already down to 1 room, asking
for 2 rooms over two nights — exactly the deficient night is reported. -/

theorem hotel_check_availability_spec_witness :
    (hotels.check_availability ⟨50, 3⟩ 0 2 2
        (fun d => if d = 0 then some 1 else none)).2.reasons =
      [HotelReason.onlyRoomsLeftOn 1 0] := by
  have h := (hotel_check_availability_spec ⟨50, 3⟩ 2 0 2
    (fun d => if d = 0 then some 1 else none) (by norm_num)).2
  rw [h]
  rfl

theorem hotelInvOK_upd {rt : HotelRoomType} {inv : HotelInv} {d v : ℤ}
    (h : HotelInvOK rt inv) (h1 : 0 ≤ v) (h2 : v ≤ rt.total_rooms) :
    HotelInvOK rt (inv.upd d v) := by
  intro x w hx
  unfold HotelInv.upd at hx
  by_cases hxd : x = d
  · rw [if_pos hxd] at hx
    cases hx
    exact ⟨h1, h2⟩
  · rw [if_neg hxd] at hx
    exact h x w hx

theorem hotelInvNonneg_upd {inv : HotelInv} {d v : ℤ}
    (h : HotelInvNonneg inv) (h1 : 0 ≤ v) : HotelInvNonneg (inv.upd d v) := by
  intro x w hx
  unfold HotelInv.upd at hx
  by_cases hxd : x = d
  · rw [if_pos hxd] at hx
    cases hx
    exact h1
  · rw [if_neg hxd] at hx
    exact h x w hx

theorem recVal_nonneg {rt : HotelRoomType} {inv : HotelInv} (d : ℤ)
    (h : HotelInvNonneg inv) (h0 : 0 ≤ rt.total_rooms) : 0 ≤ recVal rt inv d := by
  unfold recVal
  dsimp only
  rcases hd : inv d with _ | v
  · simp only [Option.getD_none]
    omega
  · simp only [Option.getD_some]
    have := h d v hd
    omega

theorem hotelInvOK_ensure {rt : HotelRoomType} {inv : HotelInv} (d : ℤ)
    (h : HotelInvOK rt inv) (h0 : 0 ≤ rt.total_rooms) :
    HotelInvOK rt (ensure_inventory rt inv d).1 :=
  hotelInvOK_upd h
    (recVal_nonneg d (fun x v hx => (h x v hx).1) h0)
    (recVal_le_total rt inv d)

theorem hotelInvNonneg_ensure {rt : HotelRoomType} {inv : HotelInv} (d : ℤ)
    (h : HotelInvNonneg inv) (h0 : 0 ≤ rt.total_rooms) :
    HotelInvNonneg (ensure_inventory rt inv d).1 :=
  hotelInvNonneg_upd h (recVal_nonneg d h h0)

theorem hotelCheckDays_invOK {rt : HotelRoomType} {rooms : ℤ} (h0 : 0 ≤ rt.total_rooms) :
    ∀ (days : List ℤ) (inv : HotelInv), HotelInvOK rt inv →
      HotelInvOK rt (hotelCheckDays rt rooms days inv).1
  | [], _, h => h
  | day :: rest, inv, h => by
      unfold hotelCheckDays
      dsimp only
      exact hotelCheckDays_invOK h0 rest _ (hotelInvOK_ensure day h h0)

theorem hotelAdjustDays_invOK {rt : HotelRoomType} {rooms delta : ℤ}
    (hδ : delta * rooms ≤ 0) (h0 : 0 ≤ rt.total_rooms) :
    ∀ (days : List ℤ) (inv : HotelInv), HotelInvOK rt inv →
      HotelInvOK rt (hotelAdjustDays rt rooms delta days inv).1
  | [], _, h => h
  | day :: rest, inv, h => by
      unfold hotelAdjustDays
      dsimp only
      split
      · exact hotelInvOK_ensure day h h0
      · rename_i hnv
        refine hotelAdjustDays_invOK hδ h0 rest _ (hotelInvOK_upd (hotelInvOK_ensure day h h0) (by omega) ?_)
        rw [ensure_inventory_snd]
        have := recVal_le_total rt inv day
        omega

theorem hotelAdjustDays_nonneg {rt : HotelRoomType} {rooms delta : ℤ}
    (h0 : 0 ≤ rt.total_rooms) :
    ∀ (days : List ℤ) (inv : HotelInv), HotelInvNonneg inv →
      HotelInvNonneg (hotelAdjustDays rt rooms delta days inv).1
  | [], _, h => h
  | day :: rest, inv, h => by
      unfold hotelAdjustDays
      dsimp only
      split
      · exact hotelInvNonneg_ensure day h h0
      · rename_i hnv
        exact hotelAdjustDays_nonneg h0 rest _
          (hotelInvNonneg_upd (hotelInvNonneg_ensure day h h0) (by omega))

theorem atomically_cases {σ ε β : Type} (db : σ) (body : σ → σ × Except ε β) :
    (∃ e, (body db).2 = .error e ∧ atomically db body = (db, .error e)) ∨
    (∃ b, (body db).2 = .ok b ∧ atomically db body = ((body db).1, .ok b)) := by
  rcases hb : (body db).2 with e | b
  · exact Or.inl ⟨e, rfl, atomically_error db body hb⟩
  · exact Or.inr ⟨b, rfl, atomically_ok db body hb⟩

theorem atomically_fst_invariant {σ ε β : Type} (P : σ → Prop) (db : σ)
    (body : σ → σ × Except ε β) (hdb : P db)
    (hok : ∀ b, (body db).2 = .ok b → P (body db).1) : P (atomically db body).1 := by
  rcases atomically_cases db body with ⟨e, h1, h2⟩ | ⟨b, h1, h2⟩
  · rw [h2]
    exact hdb
  · rw [h2]
    exact hok b h1

theorem check_availability_invOK {rt : HotelRoomType} {ci co rooms : ℤ} {inv : HotelInv}
    (h0 : 0 ≤ rt.total_rooms) (h : HotelInvOK rt inv) :
    HotelInvOK rt (hotels.check_availability rt ci co rooms inv).1 := by
  unfold hotels.check_availability
  split
  · exact h
  · exact hotelCheckDays_invOK h0 _ _ h

theorem reserve_inventory_invOK {rt : HotelRoomType} {ci co rooms : ℤ} {inv : HotelInv}
    (h0 : 0 ≤ rt.total_rooms) (hrooms : 0 ≤ rooms) (h : HotelInvOK rt inv) :
    HotelInvOK rt (reserve_inventory rt ci co rooms inv).1 :=
  hotelAdjustDays_invOK (by omega) h0 _ _ h

/-- C4 counterexample: from a state whose single row is at full capacity
(`available_rooms = total_rooms = 1`), `release_inventory` of one room over
one day leaves the row at `2 > total_rooms`, so the claimed invariant
`available_rooms ≤ total_rooms` does not hold after every operation. -/

theorem release_inventory_exceeds_capacity :
    ((release_inventory ⟨100, 1⟩ 0 1 1 (fun d => if d = 0 then some 1 else none)).1) 0 =
      some 2 ∧ ¬ ((2 : ℤ) ≤ (1 : ℤ)) :=
  ⟨rfl, by norm_num⟩

/-- C4 (amended): with non-negative capacity and a non-negative room count,
`check_availability`, `reserve_inventory` and `create_booking` preserve
`0 ≤ available_rooms ≤ total_rooms` for every row; `reserve_inventory` and
`release_inventory` raise rather than save a negative count (all rows stay
non-negative, on the error path too); and a read through `_ensure_inventory`
clamps a row above capacity back down to `total_rooms`.  (`release_inventory`
alone may leave a row above `total_rooms`; see the counterexample.) -/

theorem inventory_invariant_amended :
    ∀ (rt : HotelRoomType) (ci co rooms guests : ℤ)
      (surname email special uuid : List Char)
      (payment : Option PaymentResult) (inv : HotelInv) (db : HotelDB),
      0 ≤ rt.total_rooms → 0 ≤ rooms →
      (HotelInvOK rt inv →
        HotelInvOK rt (hotels.check_availability rt ci co rooms inv).1) ∧
      (HotelInvOK rt inv →
        HotelInvOK rt (reserve_inventory rt ci co rooms inv).1) ∧
      (HotelInvNonneg inv → HotelInvNonneg (reserve_inventory rt ci co rooms inv).1) ∧
      (HotelInvNonneg inv → HotelInvNonneg (release_inventory rt ci co rooms inv).1) ∧
      (∀ d v, inv d = some v → rt.total_rooms < v →
        (ensure_inventory rt inv d).1 d = some rt.total_rooms) ∧
      (HotelInvOK rt db.inv →
        HotelInvOK rt (hotels.create_booking rt ci co rooms guests surname email special
          payment uuid db).1.inv) := by
  intro rt ci co rooms guests surname email special uuid payment inv db h0 hrooms
  refine ⟨check_availability_invOK h0, reserve_inventory_invOK h0 hrooms,
    fun h => hotelAdjustDays_nonneg h0 _ _ h,
    fun h => hotelAdjustDays_nonneg h0 _ _ h, ?_, ?_⟩
  · intro d v hv hgt
    rw [ensure_inventory_fst, if_pos rfl]
    unfold recVal
    rw [hv]
    simp only [Option.getD_some]
    rw [if_pos hgt]
  · intro hck
    unfold hotels.create_booking
    dsimp only
    split
    · exact check_availability_invOK h0 hck
    · refine atomically_fst_invariant
        (fun dbx : HotelDB => HotelInvOK rt dbx.inv) _ _
        (check_availability_invOK h0 hck) ?_
      intro b hb
      unfold hotels.bookingTransaction at hb ⊢
      dsimp only at hb ⊢
      rcases hres : reserve_inventory rt ci co rooms
          (hotels.check_availability rt ci co rooms db.inv).1 with ⟨inv2, rerr⟩
      cases rerr with
      | some night =>
          rw [hres] at hb
          simp at hb
      | none =>
          rw [hres] at hb
          cases payment with
          | none => simp at hb
          | some pay =>
              dsimp only
              have hr2 : HotelInvOK rt (reserve_inventory rt ci co rooms
                  (hotels.check_availability rt ci co rooms db.inv).1).1 :=
                reserve_inventory_invOK h0 hrooms (check_availability_invOK h0 hck)
              rw [hres] at hr2
              exact hr2

/-- Witness for the amended C4 at a concrete in-bounds state. -/

theorem inventory_invariant_amended_witness :
    HotelInvNonneg ((release_inventory ⟨100, 2⟩ 0 1 1 (fun _ => none)).1) := by
  have h := inventory_invariant_amended ⟨100, 2⟩ 0 1 1 1 [] [] [] [] none
    (fun _ => none) ⟨fun _ => none, [], []⟩ (by norm_num) (by norm_num)
  exact h.2.2.2.1 (fun d v hv => by simp at hv)

theorem availableSeatCount_eq (f : FlightRec) :
    availableSeatCount f = unreservedOutboundCount f.seats := rfl

theorem applyReturnDateFilter_subset {rd : Option DT} {q : List FlightRec} {f : FlightRec}
    (h : f ∈ applyReturnDateFilter rd q) : f ∈ q := by
  unfold applyReturnDateFilter at h
  cases rd with
  | none => exact h
  | some rdv => exact List.mem_of_mem_filter h

theorem applyReturnOriginFilter_subset {ro : Option (List Char)} {q : List FlightRec}
    {f : FlightRec} (h : f ∈ applyReturnOriginFilter ro q) : f ∈ q := by
  unfold applyReturnOriginFilter at h
  cases ro with
  | none => exact h
  | some rov =>
      dsimp only at h
      iterate 3 all_goals try split at h
      all_goals first
        | exact h
        | exact List.mem_of_mem_filter h

theorem applyReturnDestinationFilter_subset {rdst : Option (List Char)} {q : List FlightRec}
    {f : FlightRec} (h : f ∈ applyReturnDestinationFilter rdst q) : f ∈ q := by
  unfold applyReturnDestinationFilter at h
  cases rdst with
  | none => exact h
  | some rdstv =>
      dsimp only at h
      iterate 3 all_goals try split at h
      all_goals first
        | exact h
        | exact List.mem_of_mem_filter h

theorem search_flights_member_count :
    ∀ (fl : List FlightRec) (origin destination : List Char) (dd : DT)
      (rd : Option DT) (ro rdst : Option (List Char)) (n : ℤ) (f : FlightRec),
      f ∈ flights.search_flights fl origin destination dd rd ro rdst n →
      max 1 (min 7 n) ≤ availableSeatCount f := by
  intro fl origin destination dd rd ro rdst n f h
  unfold flights.search_flights at h
  dsimp only at h
  replace h := (List.perm_insertionSort departureTimeLe _).subset h
  replace h := applyReturnDestinationFilter_subset h
  replace h := applyReturnOriginFilter_subset h
  replace h := applyReturnDateFilter_subset h
  replace h := List.mem_of_mem_filter h
  replace h := List.mem_of_mem_filter h
  exact of_decide_eq_true (List.mem_filter.mp h).2

theorem flights_create_booking_not_enough_seats :
    ∀ (bp rbp : ℚ) (ce : List Char) (na : Bool) (n : ℤ)
      (details : Option (List PassengerInput)) (payment : Option PaymentResult)
      (uuid : List Char) (today : ℤ) (db : FlightDB),
      unreservedOutboundCount db.seats < n →
      flights.create_booking bp rbp ce na n details payment uuid today db =
        (db, .error (.availability .notEnoughSeats)) := by
  intro bp rbp ce na n details payment uuid today db hcount
  unfold flights.create_booking
  dsimp only
  have hsort : ((db.seats.filter
      (fun s => !s.is_reserved && (s.leg == FlightLeg.outbound))).insertionSort
      seatNumberLe).length =
      (db.seats.filter (fun s => !s.is_reserved && (s.leg == FlightLeg.outbound))).length :=
    (List.perm_insertionSort seatNumberLe _).length_eq
  rw [if_pos ?_]
  rw [List.length_take, hsort]
  unfold unreservedOutboundCount at hcount
  omega

/-- C5 counterexample: searching for 8 passengers still returns a flight
with only 7 unreserved outbound seats — `search_flights` compares against
`max(1, min(7, passenger_count))`, not against the requested count. -/

theorem search_flights_returns_flight_below_requested_count :
    flightEx ∈ flights.search_flights [flightEx] ['A', 'A', 'A'] ['B', 'B', 'B'] ⟨0, 0⟩
        none none none 8 ∧
    availableSeatCount flightEx = 7 ∧ ¬ ((8 : ℤ) ≤ availableSeatCount flightEx) := by
  refine ⟨?_, by decide, by decide⟩
  decide

/-- C5 (amended): `search_flights` returns only flights whose unreserved
outbound-seat count is at least `max(1, min(7, n))` — the requested
passenger count clamped into `1..7`, not `n` itself — and `create_booking`
raises `AvailabilityError` ("not enough seats") whenever fewer than `n`
unreserved outbound seats exist on the chosen flight, leaving the database
untouched. -/

theorem flight_availability_spec :
    (∀ (fl : List FlightRec) (origin destination : List Char) (dd : DT)
       (rd : Option DT) (ro rdst : Option (List Char)) (n : ℤ) (f : FlightRec),
       f ∈ flights.search_flights fl origin destination dd rd ro rdst n →
       max 1 (min 7 n) ≤ availableSeatCount f) ∧
    (∀ (bp rbp : ℚ) (ce : List Char) (na : Bool) (n : ℤ)
       (details : Option (List PassengerInput)) (payment : Option PaymentResult)
       (uuid : List Char) (today : ℤ) (db : FlightDB),
       unreservedOutboundCount db.seats < n →
       flights.create_booking bp rbp ce na n details payment uuid today db =
         (db, .error (.availability .notEnoughSeats))) :=
  ⟨search_flights_member_count, flights_create_booking_not_enough_seats⟩

/-- Witness for the amended C5: a 2-passenger search hit guarantees at least
2 free seats, and booking on an empty seat table raises the seats error. -/

theorem flight_availability_spec_witness :
    (2 : ℤ) ≤ availableSeatCount flightEx ∧
    flights.create_booking 100 0 [] true 1 none none [] 0 ⟨[], [], [], []⟩ =
      (⟨[], [], [], []⟩, .error (.availability .notEnoughSeats)) := by
  constructor
  · exact flight_availability_spec.1 [flightEx] ['A', 'A', 'A'] ['B', 'B', 'B'] ⟨0, 0⟩
      none none none 2 flightEx (by decide)
  · exact flight_availability_spec.2 100 0 [] true 1 none none [] 0 ⟨[], [], [], []⟩
      (by decide)

theorem atomically_snd {σ ε β : Type} (db : σ) (body : σ → σ × Except ε β) :
    (atomically db body).2 = (body db).2 := by
  unfold atomically
  rcases hb : body db with ⟨db1, r⟩
  cases r with
  | ok b => rfl
  | error e => rfl

theorem buildPassengerDetails_error_of_hand (today : ℤ) :
    ∀ (ds : List PassengerInput) (idx : ℕ),
      (∃ p ∈ ds, HAND_LUGGAGE_LIMIT_KG < normalize_weight_input p.hand_luggage_weight) →
      ∃ r, buildPassengerDetails today idx ds = .error r := by
  intro ds
  induction ds with
  | nil =>
      intro idx h
      obtain ⟨p, hp, _⟩ := h
      simp at hp
  | cons d rest ih =>
      intro idx h
      by_cases h1 : trimStr d.first_name = [] ∨ trimStr d.last_name = [] ∨
          d.date_of_birth = DobInput.missing
      · refine ⟨.incompleteDetails idx, ?_⟩
        unfold buildPassengerDetails
        dsimp only
        rw [if_pos h1]
      · rcases hdob : dobResolve d.date_of_birth with _ | dob
        · refine ⟨.invalidDateOfBirth idx, ?_⟩
          unfold buildPassengerDetails
          dsimp only
          rw [if_neg h1, hdob]
        · by_cases h2 : today < dob
          · refine ⟨.futureDateOfBirth idx, ?_⟩
            unfold buildPassengerDetails
            dsimp only
            rw [if_neg h1, hdob]
            dsimp only
            rw [if_pos h2]
          · by_cases h3 : HAND_LUGGAGE_LIMIT_KG <
                normalize_weight_input d.hand_luggage_weight
            · refine ⟨.handLuggageExceedsLimit idx, ?_⟩
              unfold buildPassengerDetails
              dsimp only
              rw [if_neg h1, hdob]
              dsimp only
              rw [if_neg h2, if_pos h3]
            · obtain ⟨p, hp, hpw⟩ := h
              have hp' : p ∈ rest := by
                rcases List.mem_cons.mp hp with rfl | hmem
                · exact absurd hpw h3
                · exact hmem
              obtain ⟨r, hr⟩ := ih (idx + 1) ⟨p, hp', hpw⟩
              refine ⟨r, ?_⟩
              unfold buildPassengerDetails
              dsimp only
              rw [if_neg h1, hdob]
              dsimp only
              rw [if_neg h2, if_neg h3, hr]

theorem buildPassengerDetails_no_hand_error (today : ℤ) :
    ∀ (ds : List PassengerInput) (idx : ℕ) (i : ℕ),
      (∀ p ∈ ds, normalize_weight_input p.hand_luggage_weight ≤ HAND_LUGGAGE_LIMIT_KG) →
      buildPassengerDetails today idx ds ≠ .error (.handLuggageExceedsLimit i) := by
  intro ds
  induction ds with
  | nil =>
      intro idx i hle heq
      simp [buildPassengerDetails] at heq
  | cons d rest ih =>
      intro idx i hle heq
      unfold buildPassengerDetails at heq
      dsimp only at heq
      split at heq
      · simp at heq
      · rcases hdob : dobResolve d.date_of_birth with _ | dob
        all_goals rw [hdob] at heq
        · simp at heq
        · dsimp only at heq
          split at heq
          · simp at heq
          · split at heq
            · rename_i h3
              exact absurd (hle d (List.mem_cons_self d rest)) (by
                rw [not_le]
                exact h3)
            · rcases hrec : buildPassengerDetails today (idx + 1) rest with e | pr
              all_goals rw [hrec] at heq
              · dsimp only at heq
                have he : e = FlightAvailReason.handLuggageExceedsLimit i := by
                  exact Except.error.inj heq
                subst he
                exact ih (idx + 1) i (fun p hp => hle p (List.mem_cons_of_mem d hp)) hrec
              · rcases pr with ⟨rows2, fees2⟩
                simp at heq

theorem buildPassengerDetails_fees (today : ℤ) :
    ∀ (ds : List PassengerInput) (idx : ℕ) (rows : List PassengerDetailRow) (fees : List ℚ),
      buildPassengerDetails today idx ds = .ok (rows, fees) →
      fees = ds.map (fun d => calculate_luggage_overweight_fee
        (normalize_weight_input d.main_luggage_weight)) ∧
      rows.map (fun r => r.luggage_fee) = fees := by
  intro ds
  induction ds with
  | nil =>
      intro idx rows fees h
      unfold buildPassengerDetails at h
      simp at h
      obtain ⟨h1, h2⟩ := h
      subst h1
      subst h2
      exact ⟨rfl, rfl⟩
  | cons d rest ih =>
      intro idx rows fees h
      unfold buildPassengerDetails at h
      dsimp only at h
      split at h
      · simp at h
      · rcases hdob : dobResolve d.date_of_birth with _ | dob
        all_goals rw [hdob] at h
        · simp at h
        · dsimp only at h
          split at h
          · simp at h
          · split at h
            · simp at h
            · rcases hrec : buildPassengerDetails today (idx + 1) rest with e | pr
              all_goals rw [hrec] at h
              · simp at h
              · rcases pr with ⟨rows2, fees2⟩
                dsimp only at h
                injection h with hpair
                injection hpair with hrows hfees
                subst hrows
                subst hfees
                obtain ⟨hf2, hr2⟩ := ih (idx + 1) rows2 fees2 hrec
                constructor
                · simp only [List.map_cons]
                  rw [hf2]
                · simp only [List.map_cons]
                  rw [hr2]

/-- C8: a passenger with hand luggage over `HAND_LUGGAGE_LIMIT_KG` makes
`create_booking` raise an `AvailabilityError` before any seat is reserved or
payment charged — the returned database is the input unchanged, whatever the
gateway outcome; with every hand weight within the limit the hand-luggage
error is never raised; and luggage fees are computed from the main (checked)
luggage weights alone, so compliant hand luggage never incurs a fee. -/

theorem hand_luggage_limit_spec :
    (∀ (bp rbp : ℚ) (ce : List Char) (na : Bool) (n : ℤ) (ds : List PassengerInput)
       (payment : Option PaymentResult) (uuid : List Char) (today : ℤ) (db : FlightDB),
       (∃ p ∈ ds, HAND_LUGGAGE_LIMIT_KG < normalize_weight_input p.hand_luggage_weight) →
       ∃ r, flights.create_booking bp rbp ce na n (some ds) payment uuid today db =
         (db, .error (.availability r))) ∧
    (∀ (bp rbp : ℚ) (ce : List Char) (na : Bool) (n : ℤ) (ds : List PassengerInput)
       (payment : Option PaymentResult) (uuid : List Char) (today : ℤ) (db : FlightDB)
       (i : ℕ),
       (∀ p ∈ ds, normalize_weight_input p.hand_luggage_weight ≤ HAND_LUGGAGE_LIMIT_KG) →
       (flights.create_booking bp rbp ce na n (some ds) payment uuid today db).2 ≠
         .error (.availability (.handLuggageExceedsLimit i))) ∧
    (∀ (today : ℤ) (ds : List PassengerInput) (idx : ℕ)
       (rows : List PassengerDetailRow) (fees : List ℚ),
       buildPassengerDetails today idx ds = .ok (rows, fees) →
       fees = ds.map (fun d => calculate_luggage_overweight_fee
         (normalize_weight_input d.main_luggage_weight))) := by
  refine ⟨?_, ?_, ?_⟩
  · intro bp rbp ce na n ds payment uuid today db hex
    unfold flights.create_booking
    dsimp only
    by_cases hlt : (((((db.seats.filter
        (fun s => !s.is_reserved && (s.leg == FlightLeg.outbound))).insertionSort
        seatNumberLe).take (max 1 n).toNat).length : ℤ)) < max 1 n
    · rw [if_pos hlt]
      exact ⟨.notEnoughSeats, rfl⟩
    · rw [if_neg hlt]
      by_cases hlen : ds.length ≠ ((((db.seats.filter
          (fun s => !s.is_reserved && (s.leg == FlightLeg.outbound))).insertionSort
          seatNumberLe).take (max 1 n).toNat).length)
      · rw [if_pos hlen]
        exact ⟨.passengerMismatch, rfl⟩
      · rw [if_neg hlen]
        obtain ⟨r, hr⟩ := buildPassengerDetails_error_of_hand today ds 1 hex
        rw [hr]
        exact ⟨r, rfl⟩
  · intro bp rbp ce na n ds payment uuid today db i hle heq
    unfold flights.create_booking at heq
    dsimp only at heq
    by_cases hlt : (((((db.seats.filter
        (fun s => !s.is_reserved && (s.leg == FlightLeg.outbound))).insertionSort
        seatNumberLe).take (max 1 n).toNat).length : ℤ)) < max 1 n
    · rw [if_pos hlt] at heq
      simp at heq
    · rw [if_neg hlt] at heq
      by_cases hlen : ds.length ≠ ((((db.seats.filter
          (fun s => !s.is_reserved && (s.leg == FlightLeg.outbound))).insertionSort
          seatNumberLe).take (max 1 n).toNat).length)
      · rw [if_pos hlen] at heq
        simp at heq
      · rw [if_neg hlen] at heq
        rcases hb : buildPassengerDetails today 1 ds with e | pr
        · rw [hb] at heq
          simp only [Except.error.injEq, FlightErr.availability.injEq] at heq
          subst heq
          exact buildPassengerDetails_no_hand_error today ds 1 i hle hb
        · rcases pr with ⟨rows, fees⟩
          rw [hb] at heq
          try dsimp only at heq
          rw [atomically_snd] at heq
          unfold flights.bookingTransaction at heq
          try dsimp only at heq
          rcases hres : flights.reserve_seats ((((db.seats.filter
              (fun s => !s.is_reserved && (s.leg == FlightLeg.outbound))).insertionSort
              seatNumberLe).take (max 1 n).toNat)) db.seats with ⟨seats2, rerr⟩
          rw [hres] at heq
          cases rerr with
          | some sn => simp at heq
          | none =>
              cases payment with
              | none => simp at heq
              | some pay => simp at heq
  · intro today ds idx rows fees h
    exact (buildPassengerDetails_fees today ds idx rows fees h).1

/-- Witness for C8: an 8 kg hand bag aborts the booking with the database
unchanged; a 5 kg hand bag never triggers the hand-luggage error. -/

theorem hand_luggage_limit_spec_witness :
    (flights.create_booking 100 0 [] true 1 (some [passengerHeavyHand]) none [] 1000
        flightDBEx).1 = flightDBEx ∧
    (flights.create_booking 100 0 [] true 1 (some [passengerLightHand]) none [] 1000
        flightDBEx).2 ≠
      .error (.availability (.handLuggageExceedsLimit 1)) := by
  have h8 : HAND_LUGGAGE_LIMIT_KG <
      normalize_weight_input passengerHeavyHand.hand_luggage_weight := by
    show HAND_LUGGAGE_LIMIT_KG < normalize_weight_input (.value 8)
    simp only [normalize_weight_input]
    rw [if_neg (by norm_num)]
    have hq : quantize2 (8 : ℚ) = 8 := by exact_mod_cast quantize2_intCast 8
    rw [hq]
    unfold HAND_LUGGAGE_LIMIT_KG
    norm_num
  have h5 : normalize_weight_input passengerLightHand.hand_luggage_weight ≤
      HAND_LUGGAGE_LIMIT_KG := by
    show normalize_weight_input (.value 5) ≤ HAND_LUGGAGE_LIMIT_KG
    simp only [normalize_weight_input]
    rw [if_neg (by norm_num)]
    have hq : quantize2 (5 : ℚ) = 5 := by exact_mod_cast quantize2_intCast 5
    rw [hq]
    unfold HAND_LUGGAGE_LIMIT_KG
    norm_num
  constructor
  · obtain ⟨r, hr⟩ := hand_luggage_limit_spec.1 100 0 [] true 1 [passengerHeavyHand]
      none [] 1000 flightDBEx ⟨passengerHeavyHand, List.mem_singleton.mpr rfl, h8⟩
    rw [hr]
  · refine hand_luggage_limit_spec.2.1 100 0 [] true 1 [passengerLightHand]
      none [] 1000 flightDBEx 1 ?_
    intro p hp
    rw [List.mem_singleton.mp hp]
    exact h5

theorem recVal_upd_other {rt : HotelRoomType} {inv : HotelInv} {d x : ℤ} (v : ℤ)
    (h : x ≠ d) : recVal rt (inv.upd d v) x = recVal rt inv x := by
  unfold recVal HotelInv.upd
  rw [if_neg h]

theorem ensure_inventory_keep {rt : HotelRoomType} {inv : HotelInv} {d x v : ℤ}
    (hle : HotelInvLe rt inv) (hx : inv x = some v) :
    (ensure_inventory rt inv d).1 x = some v := by
  rw [ensure_inventory_fst]
  by_cases hxd : x = d
  · subst hxd
    rw [if_pos rfl]
    unfold recVal
    rw [hx]
    simp only [Option.getD_some]
    rw [if_neg (by
      have := hle x v hx
      omega)]
  · rw [if_neg hxd]
    exact hx

theorem ensure_inventory_invLe {rt : HotelRoomType} {inv : HotelInv} (d : ℤ)
    (hle : HotelInvLe rt inv) : HotelInvLe rt (ensure_inventory rt inv d).1 := by
  intro x v hx
  rw [ensure_inventory_fst] at hx
  by_cases hxd : x = d
  · rw [if_pos hxd] at hx
    cases hx
    exact recVal_le_total rt inv d
  · rw [if_neg hxd] at hx
    exact hle x v hx

theorem hotelCheckDays_keep {rt : HotelRoomType} {rooms : ℤ} :
    ∀ (days : List ℤ) (inv : HotelInv), HotelInvLe rt inv →
      ∀ x v, inv x = some v → (hotelCheckDays rt rooms days inv).1 x = some v
  | [], _, _, _, _, hx => hx
  | day :: rest, inv, hle, x, v, hx => by
      unfold hotelCheckDays
      dsimp only
      exact hotelCheckDays_keep rest _ (ensure_inventory_invLe day hle) x v
        (ensure_inventory_keep hle hx)

theorem hotelAdjustDays_reserve_none {rt : HotelRoomType} {rooms : ℤ} :
    ∀ (days : List ℤ) (inv : HotelInv), days.Nodup →
      (∀ d ∈ days, rooms ≤ recVal rt inv d) →
      (hotelAdjustDays rt rooms (-1) days inv).2 = none
  | [], _, _, _ => rfl
  | day :: rest, inv, hnd, hge => by
      unfold hotelAdjustDays
      dsimp only
      rw [ensure_inventory_snd]
      have hday : rooms ≤ recVal rt inv day := hge day (List.mem_cons_self day rest)
      rw [if_neg (by omega)]
      refine hotelAdjustDays_reserve_none rest _ (List.Nodup.of_cons hnd) ?_
      intro d hd
      have hne : d ≠ day := by
        intro hcontra
        subst hcontra
        exact (List.nodup_cons.mp hnd).1 hd
      rw [recVal_upd_other _ hne, recVal_ensure]
      exact hge d (List.mem_cons_of_mem day hd)

theorem check_availability_recVal (rt : HotelRoomType) (ci co rooms : ℤ) (inv : HotelInv) :
    ∀ x, recVal rt (hotels.check_availability rt ci co rooms inv).1 x = recVal rt inv x := by
  intro x
  unfold hotels.check_availability
  split
  · rfl
  · exact hotelCheckDays_recVal rt rooms _ inv x

theorem check_availability_keep {rt : HotelRoomType} {ci co rooms : ℤ} {inv : HotelInv}
    (hle : HotelInvLe rt inv) :
    ∀ x v, inv x = some v → (hotels.check_availability rt ci co rooms inv).1 x = some v := by
  intro x v hx
  unfold hotels.check_availability
  split
  · exact hx
  · exact hotelCheckDays_keep _ inv hle x v hx

theorem check_availability_true_ge {rt : HotelRoomType} {ci co rooms : ℤ} {inv : HotelInv}
    (h : (hotels.check_availability rt ci co rooms inv).2.available = true) :
    ∀ d ∈ daterange ci co, rooms ≤ recVal rt inv d := by
  unfold hotels.check_availability at h
  split at h
  · simp at h
  · dsimp only at h
    rw [hotelCheckDays_reasons, List.isEmpty_iff, List.map_eq_nil_iff,
      List.filter_eq_nil_iff] at h
    intro d hd
    have := h d hd
    simp only [decide_eq_true_eq] at this
    omega

/-- The hotel half of the all-or-nothing property: when the gateway raises,
`create_booking` ends in an error, the per-night counts as read are exactly
the pre-attempt counts, every stored row (within capacity) is untouched, and
no booking or payment row is written; if the availability pre-check passed,
the surfaced error is precisely the payment exception. -/

theorem hotel_create_rollback :
    ∀ (rt : HotelRoomType) (ci co rooms guests : ℤ)
      (surname email special uuid : List Char) (db : HotelDB),
      (∀ d, recVal rt (hotels.create_booking rt ci co rooms guests surname email special
          none uuid db).1.inv d = recVal rt db.inv d) ∧
      (HotelInvLe rt db.inv → ∀ d v, db.inv d = some v →
        (hotels.create_booking rt ci co rooms guests surname email special
          none uuid db).1.inv d = some v) ∧
      (hotels.create_booking rt ci co rooms guests surname email special
          none uuid db).1.bookings = db.bookings ∧
      (hotels.create_booking rt ci co rooms guests surname email special
          none uuid db).1.payments = db.payments ∧
      (∃ e, (hotels.create_booking rt ci co rooms guests surname email special
          none uuid db).2 = Except.error e) ∧
      ((hotels.check_availability rt ci co rooms db.inv).2.available = true →
        (hotels.create_booking rt ci co rooms guests surname email special
          none uuid db).2 = Except.error HotelErr.payment) := by
  intro rt ci co rooms guests surname email special uuid db
  unfold hotels.create_booking
  dsimp only
  by_cases hav : (hotels.check_availability rt ci co rooms db.inv).2.available = false
  · rw [if_pos hav]
    refine ⟨check_availability_recVal rt ci co rooms db.inv, ?_, rfl, rfl, ⟨_, rfl⟩, ?_⟩
    · intro hle d v hv
      exact check_availability_keep hle d v hv
    · intro htrue
      rw [htrue] at hav
      simp at hav
  · rw [if_neg hav]
    have hge1 : ∀ d ∈ daterange ci co,
        rooms ≤ recVal rt (hotels.check_availability rt ci co rooms db.inv).1 d := by
      intro d hd
      rw [check_availability_recVal]
      refine check_availability_true_ge ?_ d hd
      cases h2 : (hotels.check_availability rt ci co rooms db.inv).2.available
      · exact absurd h2 hav
      · rfl
    have hres_none : (reserve_inventory rt ci co rooms
        (hotels.check_availability rt ci co rooms db.inv).1).2 = none :=
      hotelAdjustDays_reserve_none _ _ (daterange_nodup ci co) hge1
    have hbody : (hotels.bookingTransaction rt ci co rooms guests surname email special
        none uuid (hotels.calculate_total_price rt ci co rooms)
        { db with inv := (hotels.check_availability rt ci co rooms db.inv).1 }).2 =
        Except.error HotelErr.payment := by
      unfold hotels.bookingTransaction
      dsimp only
      rcases hres : reserve_inventory rt ci co rooms
          (hotels.check_availability rt ci co rooms db.inv).1 with ⟨inv2, rerr⟩
      rw [hres] at hres_none
      dsimp only at hres_none
      subst hres_none
      rfl
    rw [atomically_error _ _ hbody]
    refine ⟨check_availability_recVal rt ci co rooms db.inv, ?_, rfl, rfl, ⟨_, rfl⟩,
      fun _ => rfl⟩
    intro hle d v hv
    exact check_availability_keep hle d v hv

theorem ensure_availability_record_keep {inv : CarInv} {day x : ℤ} {v : Bool}
    (hx : inv x = some v) : (ensure_availability_record inv day).1 x = some v := by
  rw [ensure_availability_record_fst]
  by_cases hxd : x = day
  · subst hxd
    rw [if_pos rfl]
    unfold carFlag
    rw [hx]
    rfl
  · rw [if_neg hxd]
    exact hx

theorem carCheckDays_keep :
    ∀ (days : List ℤ) (inv : CarInv) (x : ℤ) (v : Bool),
      inv x = some v → (carCheckDays days inv).1 x = some v
  | [], _, _, _, hx => hx
  | day :: rest, inv, x, v, hx => by
      unfold carCheckDays
      dsimp only
      exact carCheckDays_keep rest _ x v (ensure_availability_record_keep hx)

theorem cars_check_availability_fst (pickup dropoff : ℤ) (inv : CarInv) :
    (cars.check_availability pickup dropoff inv).1 =
      (carCheckDays (daterange pickup dropoff) inv).1 := rfl

/-- The car half of the all-or-nothing property. -/

theorem car_create_rollback :
    ∀ (car : Car) (pl dl : List Char) (pickup dropoff : ℤ) (pt : Option ℤ)
      (pa fn ln cn ce uuid : List Char) (db : CarDB),
      (∀ d, carFlag (cars.create_booking car pl dl pickup dropoff pt pa fn ln cn ce
          none uuid db).1.inv d = carFlag db.inv d) ∧
      (∀ d v, db.inv d = some v →
        (cars.create_booking car pl dl pickup dropoff pt pa fn ln cn ce
          none uuid db).1.inv d = some v) ∧
      (cars.create_booking car pl dl pickup dropoff pt pa fn ln cn ce
          none uuid db).1.bookings = db.bookings ∧
      (cars.create_booking car pl dl pickup dropoff pt pa fn ln cn ce
          none uuid db).1.payments = db.payments ∧
      (∃ e, (cars.create_booking car pl dl pickup dropoff pt pa fn ln cn ce
          none uuid db).2 = Except.error e) ∧
      ((cars.check_availability pickup dropoff db.inv).2.available = true →
        (cars.create_booking car pl dl pickup dropoff pt pa fn ln cn ce
          none uuid db).2 = Except.error CarErr.payment) := by
  intro car pl dl pickup dropoff pt pa fn ln cn ce uuid db
  unfold cars.create_booking
  dsimp only
  by_cases hav : (cars.check_availability pickup dropoff db.inv).2.available = false
  · rw [if_pos hav]
    refine ⟨?_, ?_, rfl, rfl, ⟨_, rfl⟩, ?_⟩
    · intro d
      rw [cars_check_availability_fst]
      exact carCheckDays_carFlag _ db.inv d
    · intro d v hv
      rw [cars_check_availability_fst]
      exact carCheckDays_keep _ db.inv d v hv
    · intro htrue
      rw [htrue] at hav
      simp at hav
  · rw [if_neg hav]
    have hbody : (cars.bookingTransaction pl dl pickup dropoff pt pa fn ln cn ce
        none uuid (cars.calculate_total_price car pickup dropoff)
        { db with inv := (cars.check_availability pickup dropoff db.inv).1 }).2 =
        Except.error CarErr.payment := rfl
    rw [atomically_error _ _ hbody]
    refine ⟨?_, ?_, rfl, rfl, ⟨_, rfl⟩, fun _ => rfl⟩
    · intro d
      rw [cars_check_availability_fst]
      exact carCheckDays_carFlag _ db.inv d
    · intro d v hv
      rw [cars_check_availability_fst]
      exact carCheckDays_keep _ db.inv d v hv

theorem flights_reserve_seats_none :
    ∀ (sel seats : List FlightSeatRec), (∀ s ∈ sel, s.is_reserved = false) →
      (flights.reserve_seats sel seats).2 = none
  | [], _, _ => rfl
  | s :: rest, seats, hsel => by
      unfold flights.reserve_seats
      rw [if_neg (by
        rw [hsel s (List.mem_cons_self s rest)]
        simp)]
      exact flights_reserve_seats_none rest _
        (fun t ht => hsel t (List.mem_cons_of_mem s ht))

theorem selected_seats_unreserved {db : FlightDB} {k : ℕ} :
    ∀ s ∈ ((db.seats.filter
        (fun s => !s.is_reserved && (s.leg == FlightLeg.outbound))).insertionSort
        seatNumberLe).take k, s.is_reserved = false := by
  intro s hs
  have h1 := List.mem_of_mem_take hs
  have h2 := (List.perm_insertionSort seatNumberLe _).subset h1
  have h3 := (List.mem_filter.mp h2).2
  simp only [Bool.and_eq_true, Bool.not_eq_true'] at h3
  exact h3.1

theorem flight_transaction_rolls_back (seats : List FlightSeatRec)
    (rows : List PassengerDetailRow) (ce : List Char) (na : Bool)
    (uuid : List Char) (tp : ℚ) (db : FlightDB)
    (hsel : ∀ s ∈ seats, s.is_reserved = false) :
    atomically db (flights.bookingTransaction seats rows ce na none uuid tp) =
      (db, Except.error FlightErr.payment) := by
  have hbody : (flights.bookingTransaction seats rows ce na none uuid tp db).2 =
      Except.error FlightErr.payment := by
    unfold flights.bookingTransaction
    dsimp only
    rcases hres : flights.reserve_seats seats db.seats with ⟨seats2, rerr⟩
    have hn : rerr = none := by
      have h := flights_reserve_seats_none seats db.seats hsel
      rw [hres] at h
      exact h
    subst hn
    rfl
  exact atomically_error _ _ hbody

/-- The flight half of the all-or-nothing property: when the gateway raises,
`create_booking` returns the database exactly as it was (seat flags, booking,
booking-seat and payment tables) together with an error; if enough seats were
free and no passenger details were supplied (so validation passes), the error
is precisely the payment exception. -/

theorem flight_create_rollback :
    ∀ (bp rbp : ℚ) (ce : List Char) (na : Bool) (n : ℤ)
      (details : Option (List PassengerInput)) (uuid : List Char) (today : ℤ)
      (db : FlightDB),
      (∃ e, flights.create_booking bp rbp ce na n details none uuid today db =
        (db, Except.error e)) ∧
      (details = none → max 1 n ≤ unreservedOutboundCount db.seats →
        (flights.create_booking bp rbp ce na n details none uuid today db).2 =
          Except.error FlightErr.payment) := by
  intro bp rbp ce na n details uuid today db
  constructor
  · unfold flights.create_booking
    dsimp only
    by_cases hlt : (((((db.seats.filter
        (fun s => !s.is_reserved && (s.leg == FlightLeg.outbound))).insertionSort
        seatNumberLe).take (max 1 n).toNat).length : ℤ)) < max 1 n
    · rw [if_pos hlt]
      exact ⟨.availability .notEnoughSeats, rfl⟩
    · rw [if_neg hlt]
      cases details with
      | none =>
          try dsimp only
          rw [flight_transaction_rolls_back _ _ _ _ _ _ _ selected_seats_unreserved]
          exact ⟨.payment, rfl⟩
      | some ds =>
          dsimp only
          by_cases hlen : ds.length ≠ ((((db.seats.filter
              (fun s => !s.is_reserved && (s.leg == FlightLeg.outbound))).insertionSort
              seatNumberLe).take (max 1 n).toNat).length)
          · rw [if_pos hlen]
            exact ⟨.availability .passengerMismatch, rfl⟩
          · rw [if_neg hlen]
            rcases hbd : buildPassengerDetails today 1 ds with e | pr
            · exact ⟨.availability e, rfl⟩
            · rcases pr with ⟨rows, fees⟩
              dsimp only
              rw [flight_transaction_rolls_back _ _ _ _ _ _ _ selected_seats_unreserved]
              exact ⟨.payment, rfl⟩
  · intro hdet hcount
    subst hdet
    unfold flights.create_booking
    dsimp only
    have hlen : ((db.seats.filter
        (fun s => !s.is_reserved && (s.leg == FlightLeg.outbound))).insertionSort
        seatNumberLe).length = (db.seats.filter
        (fun s => !s.is_reserved && (s.leg == FlightLeg.outbound))).length :=
      (List.perm_insertionSort seatNumberLe _).length_eq
    rw [if_neg (by
      rw [List.length_take, hlen]
      unfold unreservedOutboundCount at hcount
      omega)]
    try dsimp only
    rw [flight_transaction_rolls_back _ _ _ _ _ _ _ selected_seats_unreserved]

/-- C1: booking creation is all-or-nothing.  When the payment gateway raises
(`payment = none`), each of the three `create_booking` services surfaces an
error and leaves the inventory as it was: hotel per-night `available_rooms`
counts as observed by reads are unchanged (and rows within capacity keep
their stored value), car per-day `is_available` flags are unchanged (stored
rows keep their value), flight seat `is_reserved` flags — indeed the whole
flight database — are returned exactly as before, and no booking or payment
row is created anywhere; whenever the availability pre-check passes (so the
gateway is actually called), the surfaced error is precisely the propagated
payment exception. -/

theorem booking_rollback_on_payment_failure :
    (∀ (rt : HotelRoomType) (ci co rooms guests : ℤ)
       (surname email special uuid : List Char) (db : HotelDB),
       (∀ d, recVal rt (hotels.create_booking rt ci co rooms guests surname email special
           none uuid db).1.inv d = recVal rt db.inv d) ∧
       (HotelInvLe rt db.inv → ∀ d v, db.inv d = some v →
         (hotels.create_booking rt ci co rooms guests surname email special
           none uuid db).1.inv d = some v) ∧
       (hotels.create_booking rt ci co rooms guests surname email special
           none uuid db).1.bookings = db.bookings ∧
       (hotels.create_booking rt ci co rooms guests surname email special
           none uuid db).1.payments = db.payments ∧
       (∃ e, (hotels.create_booking rt ci co rooms guests surname email special
           none uuid db).2 = Except.error e) ∧
       ((hotels.check_availability rt ci co rooms db.inv).2.available = true →
         (hotels.create_booking rt ci co rooms guests surname email special
           none uuid db).2 = Except.error HotelErr.payment)) ∧
    (∀ (car : Car) (pl dl : List Char) (pickup dropoff : ℤ) (pt : Option ℤ)
       (pa fn ln cn ce uuid : List Char) (db : CarDB),
       (∀ d, carFlag (cars.create_booking car pl dl pickup dropoff pt pa fn ln cn ce
           none uuid db).1.inv d = carFlag db.inv d) ∧
       (∀ d v, db.inv d = some v →
         (cars.create_booking car pl dl pickup dropoff pt pa fn ln cn ce
           none uuid db).1.inv d = some v) ∧
       (cars.create_booking car pl dl pickup dropoff pt pa fn ln cn ce
           none uuid db).1.bookings = db.bookings ∧
       (cars.create_booking car pl dl pickup dropoff pt pa fn ln cn ce
           none uuid db).1.payments = db.payments ∧
       (∃ e, (cars.create_booking car pl dl pickup dropoff pt pa fn ln cn ce
           none uuid db).2 = Except.error e) ∧
       ((cars.check_availability pickup dropoff db.inv).2.available = true →
         (cars.create_booking car pl dl pickup dropoff pt pa fn ln cn ce
           none uuid db).2 = Except.error CarErr.payment)) ∧
    (∀ (bp rbp : ℚ) (ce : List Char) (na : Bool) (n : ℤ)
       (details : Option (List PassengerInput)) (uuid : List Char) (today : ℤ)
       (db : FlightDB),
       (∃ e, flights.create_booking bp rbp ce na n details none uuid today db =
         (db, Except.error e)) ∧
       (details = none → max 1 n ≤ unreservedOutboundCount db.seats →
         (flights.create_booking bp rbp ce na n details none uuid today db).2 =
           Except.error FlightErr.payment)) :=
  ⟨hotel_create_rollback, car_create_rollback, flight_create_rollback⟩

/-- Witness for C1: with the gateway raising, each concrete booking attempt
surfaces exactly the payment error (and, per the theorem, rolls back). -/

theorem booking_rollback_on_payment_failure_witness :
    (hotels.create_booking ⟨100, 2⟩ 0 2 1 1 [] [] [] none [] hotelDBEx).2 =
      Except.error HotelErr.payment ∧
    (cars.create_booking carEx [] [] 0 2 none [] [] [] [] [] none [] carDBEx).2 =
      Except.error CarErr.payment ∧
    (flights.create_booking 100 0 [] true 1 none none [] 0 flightDBEx).2 =
      Except.error FlightErr.payment := by
  refine ⟨?_, ?_, ?_⟩
  · exact (booking_rollback_on_payment_failure.1 ⟨100, 2⟩ 0 2 1 1 [] [] [] []
      hotelDBEx).2.2.2.2.2 (by decide)
  · exact (booking_rollback_on_payment_failure.2.1 carEx [] [] 0 2 none [] [] [] [] []
      [] carDBEx).2.2.2.2.2 (by decide)
  · exact (booking_rollback_on_payment_failure.2.2 100 0 [] true 1 none [] 0
      flightDBEx).2 rfl (by decide)
